import Mathlib

/-! XrPresenceTest: a shallow embedding of `XrPresenceTest/Src/main.cpp`.

The development follows the source file top to bottom: configuration constants,
the swapchain record, the application state, logging, the mocked presence
functions, the ImGui render delegate, input handling (`UpdateInput`), session
management (`HandleSessionStateChange`, `HandleAppCmd`) and the main loop of
`android_main`.

Modelling conventions.

* `UpdateInput` is embedded twice. `UpdateInput`, on the whole program state,
  reads `float` values as exact rationals (`ℚ`): it is used for what rounding
  cannot change (the calls, the trigger flags, the clamp bounds, the poses with
  identity orientation). `UpdateInput32` computes in binary32: a `float` is an
  `F32`, every operation is rounded to nearest, ties to even, as written in the
  source (one rounding per operation, no fused multiply-add), and the guards
  `dz < -0.001f`, `0 < t`, `t < 100.0f` are decided on the rounded values. The
  statements about which branch a pose takes are made on `UpdateInput32`.
* C strings are `List Char` (the bytes before the terminating NUL).
* Runtime handles are natural numbers, `0` being `XR_NULL_HANDLE`.
* Every call into the OpenXR runtime (and the call of the render delegate) is
  recorded, in program order, in `Machine.calls`; what the runtime returns is an
  input of the model.
-/

namespace XrPresenceTest

/-! ## Configuration -/

/-- The string `DESTINATION_API_NAME`. -/
def DESTINATION_API_NAME : List Char := "test-location".toList

/-- The string `APP_ID`. -/
def APP_ID : List Char := "33969008956076849".toList

/-- UI panel width in pixels (`static const int UI_WIDTH`). -/
def UI_WIDTH : Int := 1024

/-- UI panel height in pixels (`static const int UI_HEIGHT`). -/
def UI_HEIGHT : Int := 768

/-! ## OpenXR types used by the program -/

/-- The OpenXR `XrVector3f`. -/
structure XrVector3f where
  x : ℚ
  y : ℚ
  z : ℚ
  deriving DecidableEq, Repr

/-- The OpenXR `XrQuaternionf`. -/
structure XrQuaternionf where
  x : ℚ
  y : ℚ
  z : ℚ
  w : ℚ
  deriving DecidableEq, Repr

/-- The OpenXR `XrPosef`. -/
structure XrPosef where
  orientation : XrQuaternionf
  position : XrVector3f
  deriving DecidableEq, Repr

/-- The OpenXR `XrSpaceLocation`: a flag word and a pose. -/
structure XrSpaceLocation where
  locationFlags : Nat
  pose : XrPosef
  deriving DecidableEq, Repr

/-- The flag bit `XR_SPACE_LOCATION_POSITION_VALID_BIT` of the OpenXR headers. -/
def XR_SPACE_LOCATION_POSITION_VALID_BIT : Nat := 2

/-- The OpenXR enumeration `XrSessionState`. -/
inductive XrSessionState where
  | UNKNOWN
  | IDLE
  | READY
  | SYNCHRONIZED
  | VISIBLE
  | FOCUSED
  | STOPPING
  | LOSS_PENDING
  | EXITING
  deriving DecidableEq, Repr

/-- The runtime events the main loop polls: the two event types of its `switch`
and every other type. -/
inductive XrEvent where
  | SESSION_STATE_CHANGED (state : XrSessionState)
  | INSTANCE_LOSS_PENDING
  | OTHER
  deriving DecidableEq, Repr

/-- The quad layer built at the end of a frame (`XrCompositionLayerQuad`), with
the fields the program sets. -/
structure XrCompositionLayerQuad where
  swapchain : Nat
  imageRectOffset : Int × Int
  imageRectExtent : Int × Int
  imageArrayIndex : Nat
  pose : XrPosef
  sizeWidth : ℚ
  sizeHeight : ℚ
  deriving DecidableEq, Repr

/-- The calls the program makes into the runtime, and the call of the render
delegate, as they are recorded in the call log. -/
inductive Call where
  | xrBeginSession
  | xrEndSession
  | xrAttachSessionActionSets
  | xrCreateActionSpace (rightHand : Bool)
  | xrSyncActions
  | xrGetActionStateFloat
  | xrLocateSpace (time : Int)
  | xrWaitFrame
  | xrBeginFrame
  | xrAcquireSwapchainImage
  | xrWaitSwapchainImage
  | RenderImGuiToTexture (imageIndex : Nat)
  | xrReleaseSwapchainImage
  | xrEndFrame (displayTime : Int) (layerCount : Nat) (layer : XrCompositionLayerQuad)
  deriving DecidableEq, Repr

/-! ## Swapchain structure and application state -/

/-- The record `ovrSwapChain`; `ColorTextures` is `none` for a null pointer. -/
structure ovrSwapChain where
  Handle : Nat
  Width : Nat
  Height : Nat
  ImageCount : Nat
  ColorTextures : Option (List Nat)
  deriving DecidableEq, Repr

/-- The record `ovrApp`, without the opaque platform and runtime handles
(`NativeApp`, `Egl`, `SystemId`, `Session`, the spaces, actions and paths). -/
structure ovrApp where
  UiSwapChain : ovrSwapChain
  UiFramebuffer : Nat
  Resumed : Bool
  SessionActive : Bool
  Running : Bool
  PresenceSet : Bool
  IsJoinable : Bool
  LobbyId : List Char
  StatusText : List Char
  LogBuffer : List Char
  CursorX : ℚ
  CursorY : ℚ
  TriggerPressed : Bool
  TriggerJustPressed : Bool
  SelectedButton : Int
  deriving DecidableEq, Repr

/-- The state after `memset(&appState, 0, sizeof(appState))`. -/
def zeroApp : ovrApp where
  UiSwapChain := ⟨0, 0, 0, 0, none⟩
  UiFramebuffer := 0
  Resumed := false
  SessionActive := false
  Running := false
  PresenceSet := false
  IsJoinable := false
  LobbyId := []
  StatusText := []
  LogBuffer := []
  CursorX := 0
  CursorY := 0
  TriggerPressed := false
  TriggerJustPressed := false
  SelectedButton := 0

/-- The program state of the model: the global `appState`, the global
`g_ImGuiInitialized`, the local `actionsAttached` of `android_main`, and the
log of calls made so far (oldest first). -/
structure Machine where
  app : ovrApp
  g_ImGuiInitialized : Bool
  actionsAttached : Bool
  calls : List Call
  deriving DecidableEq, Repr

/-- Record one call at the end of the call log. -/
def Machine.emit (c : Call) (m : Machine) : Machine :=
  { m with calls := m.calls ++ [c] }

/-! ## Logging -/

/-- The function `AppendLog`, applied to the text its format string and arguments
expand to: `vsnprintf` keeps at most 511 characters of it in `temp[512]`; if
the log would come within 100 bytes of the 8192-byte buffer its first 1024
bytes are dropped; then the text and a newline are appended. -/
def AppendLog (msg : List Char) (app : ovrApp) : ovrApp :=
  let temp := msg.take 511
  let logLen := app.LogBuffer.length
  let tempLen := temp.length
  let buf := if logLen + tempLen + 2 > 8192 - 100 then app.LogBuffer.drop 1024 else app.LogBuffer
  { app with LogBuffer := buf ++ temp ++ ['\n'] }

/-! ## Presence functions (mocked in the source) -/

/-- What `rand()` and `time(NULL)` return to one call of `GenerateLobbyId`. -/
structure Entropy where
  rand : Nat
  time : Int
  deriving DecidableEq, Repr

/-- The function `GenerateLobbyId`: `snprintf` into the 64-byte `LobbyId`. -/
def GenerateLobbyId (e : Entropy) (app : ovrApp) : ovrApp :=
  let id := ("lobby_".toList ++ (toString (e.rand % 10000)).toList ++ "_".toList
    ++ (toString e.time).toList).take 63
  AppendLog ("Generated lobby ID: ".toList ++ id) { app with LobbyId := id }

/-- The function `SetGroupPresence`. -/
def SetGroupPresence (e : Entropy) (app : ovrApp) : ovrApp :=
  let app := if app.LobbyId.length = 0 then GenerateLobbyId e app else app
  let app := AppendLog "Setting group presence...".toList app
  let app := AppendLog ("  Destination: ".toList ++ DESTINATION_API_NAME) app
  let app := AppendLog ("  LobbyId: ".toList ++ app.LobbyId) app
  let app := AppendLog "  IsJoinable: true".toList app
  let app := { app with
    PresenceSet := true
    IsJoinable := true
    StatusText := "Presence SET - Ready to invite!".toList }
  AppendLog "Presence set successfully (MOCKED)".toList app

/-- The function `ClearGroupPresence`. -/
def ClearGroupPresence (app : ovrApp) : ovrApp :=
  let app := AppendLog "Clearing group presence...".toList app
  let app := { app with
    PresenceSet := false
    IsJoinable := false
    LobbyId := []
    StatusText := "Presence cleared".toList }
  AppendLog "Presence cleared (MOCKED)".toList app

/-- The function `LaunchInvitePanel`. -/
def LaunchInvitePanel (app : ovrApp) : ovrApp :=
  let app :=
    if !app.PresenceSet || !app.IsJoinable then
      let app := AppendLog "!! WARNING: Launching invite panel but:".toList app
      let app := if !app.PresenceSet then AppendLog "   - Presence NOT set!".toList app else app
      let app := if !app.IsJoinable then AppendLog "   - User NOT joinable!".toList app else app
      AppendLog "   This will cause panel to close immediately!".toList app
    else app
  let app := AppendLog "Launching invite panel...".toList app
  let app := { app with StatusText := "Invite panel launched (MOCKED)".toList }
  AppendLog "In real implementation, system panel would appear".toList app

/-- The function `TestBuggyFlow`. -/
def TestBuggyFlow (e : Entropy) (app : ovrApp) : ovrApp :=
  let app := AppendLog "=== BUGGY FLOW (Developer's Issue) ===".toList app
  let app := AppendLog "Order: Panel -> Presence (WRONG!)".toList app
  let app := AppendLog "Result: Panel closes immediately".toList app
  let app := LaunchInvitePanel app
  SetGroupPresence e app

/-- The function `TestCorrectFlow`. -/
def TestCorrectFlow (e : Entropy) (app : ovrApp) : ovrApp :=
  let app := AppendLog "=== CORRECT FLOW ===".toList app
  let app := AppendLog "Order: Lobby -> Presence -> Panel".toList app
  let app := GenerateLobbyId e app
  let app := SetGroupPresence e app
  AppendLog "Now safe to open invite panel!".toList app

/-! ## ImGui rendering -/

/-- What the ImGui widgets report in one pass of `RenderImGuiToTexture`: for each
button whether it was activated, and for a button whose handler may call
`GenerateLobbyId`, what `rand()` and `time(NULL)` return there. -/
structure ImGuiButtons where
  generateLobby : Option Entropy
  setPresence : Option Entropy
  clearPresence : Bool
  openInvitePanel : Bool
  correctFlow : Option Entropy
  buggyFlow : Option Entropy
  clearLog : Bool
  deriving DecidableEq, Repr

/-- The state effect of `RenderImGuiToTexture`: nothing when ImGui is not
initialised, else the handlers of the activated buttons in source order (the
drawing itself has no effect on the application state). -/
def RenderImGuiToTexture (ui : ImGuiButtons) (m : Machine) : Machine :=
  if !m.g_ImGuiInitialized then m
  else
    let app := m.app
    let app := match ui.generateLobby with
      | some e => GenerateLobbyId e app
      | none => app
    let app := match ui.setPresence with
      | some e => SetGroupPresence e app
      | none => app
    let app := if ui.clearPresence then ClearGroupPresence app else app
    let app := if ui.openInvitePanel then LaunchInvitePanel app else app
    let app := match ui.correctFlow with
      | some e => TestCorrectFlow e app
      | none => app
    let app := match ui.buggyFlow with
      | some e => TestBuggyFlow e app
      | none => app
    let app := if ui.clearLog then { app with LogBuffer := [] } else app
    { m with app := app }

/-! ## Input handling -/

/-- The function `AttachActionSet`: one attach call and the two action spaces. -/
def AttachActionSet (m : Machine) : Machine :=
  let m := m.emit .xrAttachSessionActionSets
  let m := m.emit (.xrCreateActionSpace false)
  m.emit (.xrCreateActionSpace true)

/-- The forward direction `(dx, dy, dz)` that `UpdateInput` computes from the aim
orientation `q`: the three assignments of the source, as one vector. -/
def forward (q : XrQuaternionf) : XrVector3f where
  x := -2.0 * (q.x * q.z - q.w * q.y)
  y := -2.0 * (q.y * q.z + q.w * q.x)
  z := -(1.0 - 2.0 * (q.x * q.x + q.y * q.y))

/-- The function `UpdateInput`, its `float` values read as exact rationals (see
`UpdateInput32` for the same function in binary32). `triggerState` is the
`currentState` that `xrGetActionStateFloat` reports and `aimLoc` the location
that `xrLocateSpace` fills in (all zero when the call fails). -/
def UpdateInput (predictedTime : Int) (triggerState : ℚ) (aimLoc : XrSpaceLocation)
    (m : Machine) : Machine :=
  let m := m.emit .xrSyncActions
  let m := m.emit .xrGetActionStateFloat
  let wasPressed := m.app.TriggerPressed
  let pressed : Bool := decide (triggerState > 0.5)
  let m := { m with app := { m.app with
    TriggerPressed := pressed
    TriggerJustPressed := pressed && !wasPressed } }
  let m := m.emit (.xrLocateSpace predictedTime)
  if aimLoc.locationFlags &&& XR_SPACE_LOCATION_POSITION_VALID_BIT ≠ 0 then
    let px := aimLoc.pose.position.x
    let py := aimLoc.pose.position.y
    let pz := aimLoc.pose.position.z
    let q := aimLoc.pose.orientation
    let dx : ℚ := (forward q).x
    let dy : ℚ := (forward q).y
    let dz : ℚ := (forward q).z
    let panelZ : ℚ := -2.0
    if dz < -0.001 then
      let t : ℚ := (panelZ - pz) / dz
      if t > 0 ∧ t < 100.0 then
        let hitX := px + dx * t
        let hitY := py + dy * t
        let panelWidth : ℚ := 1.6
        let panelHeight : ℚ := 1.2
        let cursorX : ℚ := (0.5 - (hitX / panelWidth)) * UI_WIDTH
        let cursorY : ℚ := ((hitY / panelHeight) + 0.5) * UI_HEIGHT
        let cursorX : ℚ := if cursorX < 0 then 0 else cursorX
        let cursorX : ℚ := if cursorX > UI_WIDTH then UI_WIDTH else cursorX
        let cursorY : ℚ := if cursorY < 0 then 0 else cursorY
        let cursorY : ℚ := if cursorY > UI_HEIGHT then UI_HEIGHT else cursorY
        { m with app := { m.app with CursorX := cursorX, CursorY := cursorY } }
      else m
    else m
  else m

/-! ## Session management -/

/-- The function `HandleSessionStateChange`. -/
def HandleSessionStateChange (state : XrSessionState) (m : Machine) : Machine :=
  match state with
  | .READY =>
    let m := m.emit .xrBeginSession
    { m with app := AppendLog "VR Session started!".toList { m.app with SessionActive := true } }
  | .STOPPING =>
    let m := m.emit .xrEndSession
    { m with app := AppendLog "VR Session stopped".toList { m.app with SessionActive := false } }
  | .EXITING => { m with app := { m.app with Running := false } }
  | .LOSS_PENDING => { m with app := { m.app with Running := false } }
  | _ => m

/-- The commands the Android glue delivers to `HandleAppCmd`. -/
inductive AppCmd where
  | APP_CMD_RESUME
  | APP_CMD_PAUSE
  | APP_CMD_DESTROY
  | OTHER
  deriving DecidableEq, Repr

/-- The function `HandleAppCmd`. -/
def HandleAppCmd (cmd : AppCmd) (app : ovrApp) : ovrApp :=
  match cmd with
  | .APP_CMD_RESUME => { app with Resumed := true }
  | .APP_CMD_PAUSE => { app with Resumed := false }
  | .APP_CMD_DESTROY => { app with Running := false }
  | .OTHER => app

/-! ## Main loop of `android_main` -/

/-- One successful `ALooper_pollOnce`: the command its source hands to
`HandleAppCmd` (if any) and the value of `app->destroyRequested` afterwards. -/
structure LooperPoll where
  cmd : Option AppCmd
  destroyRequested : Bool
  deriving DecidableEq, Repr

/-- What the runtime and the widgets return during one frame. -/
structure FrameInput where
  shouldRender : Bool
  predictedDisplayTime : Int
  triggerState : ℚ
  aimLoc : XrSpaceLocation
  imageIndex : Nat
  ui : ImGuiButtons
  deriving DecidableEq, Repr

/-- The inputs of one iteration of the main loop: the successful looper polls,
the events `xrPollEvent` delivers before it stops reporting success, and the
inputs of the frame (used only if the iteration renders). -/
structure IterationInput where
  looper : List LooperPoll
  xrEvents : List XrEvent
  frame : FrameInput
  deriving DecidableEq, Repr

/-- The state when the main loop is entered: zeroed state, `Running` set, the
status text, the created swapchain and framebuffer, the six start-up log lines;
ImGui initialised, actions not attached, no call recorded yet. -/
def startMachine (sc : ovrSwapChain) (framebuffer : Nat) : Machine where
  app :=
    let app := { zeroApp with
      Running := true
      StatusText := "Ready - Set presence before inviting!".toList
      UiSwapChain := sc
      UiFramebuffer := framebuffer }
    let app := AppendLog "XrPresenceTest initialized!".toList app
    let app := AppendLog ("App ID: ".toList ++ APP_ID) app
    let app := AppendLog ("Destination: ".toList ++ DESTINATION_API_NAME) app
    let app := AppendLog [] app
    let app := AppendLog "Point controller at buttons".toList app
    AppendLog "Pull trigger to click".toList app
  g_ImGuiInitialized := true
  actionsAttached := false
  calls := []

/-- The Android event loop at the top of an iteration (`Process Android events`). -/
def processAndroidEvents : List LooperPoll → ovrApp → ovrApp
  | [], app => app
  | p :: ps, app =>
    let app := match p.cmd with
      | some c => HandleAppCmd c app
      | none => app
    if p.destroyRequested then { app with Running := false }
    else processAndroidEvents ps app

/-- The body of the `xrPollEvent` loop for one event. -/
def processXrEvent (ev : XrEvent) (m : Machine) : Machine :=
  match ev with
  | .SESSION_STATE_CHANGED state =>
    let m := HandleSessionStateChange state m
    if state = .READY ∧ !m.actionsAttached then
      let m := AttachActionSet m
      { m with actionsAttached := true }
    else m
  | .INSTANCE_LOSS_PENDING => { m with app := { m.app with Running := false } }
  | .OTHER => m

/-- The `xrPollEvent` loop (`Process OpenXR events`). -/
def processXrEvents (evs : List XrEvent) (m : Machine) : Machine :=
  evs.foldl (fun m ev => processXrEvent ev m) m

/-- The quad layer the frame builds for the UI. -/
def quadLayer (app : ovrApp) : XrCompositionLayerQuad where
  swapchain := app.UiSwapChain.Handle
  imageRectOffset := (0, 0)
  imageRectExtent := (UI_WIDTH, UI_HEIGHT)
  imageArrayIndex := 0
  pose := ⟨⟨0, 0, 0, 1.0⟩, ⟨0.0, 0.0, -2.0⟩⟩
  sizeWidth := 1.6
  sizeHeight := 1.2

/-- The part of a loop iteration after the `SessionActive` check: wait-frame to
end-frame. -/
def android_main_frame (f : FrameInput) (m : Machine) : Machine :=
  let m := m.emit .xrWaitFrame
  let m := m.emit .xrBeginFrame
  let m := UpdateInput f.predictedDisplayTime f.triggerState f.aimLoc m
  let m := m.emit .xrAcquireSwapchainImage
  let m := m.emit .xrWaitSwapchainImage
  let m := m.emit (.RenderImGuiToTexture f.imageIndex)
  let m := RenderImGuiToTexture f.ui m
  let m := m.emit .xrReleaseSwapchainImage
  m.emit (.xrEndFrame f.predictedDisplayTime (if f.shouldRender then 1 else 0) (quadLayer m.app))

/-- The state after the two event loops of an iteration. -/
def android_main_events (i : IterationInput) (m : Machine) : Machine :=
  processXrEvents i.xrEvents { m with app := processAndroidEvents i.looper m.app }

/-- One iteration of `while (appState.Running)`: the two event loops, then
`continue` if the session is not active, else the frame. -/
def android_main_iteration (i : IterationInput) (m : Machine) : Machine :=
  let m := android_main_events i m
  if !m.app.SessionActive then m
  else android_main_frame i.frame m

/-- The main loop, run on the inputs of its successive iterations: it stops when
`Running` is false at the loop head (or when the inputs end). -/
def android_main_loop : List IterationInput → Machine → Machine
  | [], m => m
  | i :: is, m =>
    if m.app.Running then android_main_loop is (android_main_iteration i m)
    else m

/-! ## Quantities and rules named by the specification, and runs of the program -/

/-- The clamp of the specification: `v` limited to the interval from `lo` to `hi`. -/
def specClamp (v lo hi : ℚ) : ℚ := max lo (min v hi)

/-- The intersection parameter of the specification: `t = (-2 - pz) / dz`. -/
def rayT (aimLoc : XrSpaceLocation) : ℚ :=
  (-2 - aimLoc.pose.position.z) / (forward aimLoc.pose.orientation).z

/-- The hit abscissa of the specification: `hitX = px + dx * t`. -/
def hitX (aimLoc : XrSpaceLocation) : ℚ :=
  aimLoc.pose.position.x + (forward aimLoc.pose.orientation).x * rayT aimLoc

/-- The hit ordinate of the specification: `hitY = py + dy * t`. -/
def hitY (aimLoc : XrSpaceLocation) : ℚ :=
  aimLoc.pose.position.y + (forward aimLoc.pose.orientation).y * rayT aimLoc

/-- The trigger rule of the specification, along a sequence of sampled values:
`pressed = value > 0.5` and `edge = pressed AND NOT previousPressed`. -/
def specTriggerEdges : Bool → List ℚ → List (Bool × Bool)
  | _, [] => []
  | previousPressed, value :: rest =>
    let pressed : Bool := decide (value > 0.5)
    (pressed, pressed && !previousPressed) :: specTriggerEdges pressed rest

/-- The states after each of a sequence of `UpdateInput` calls, one call per
entry (predicted time, trigger value, aim location). -/
def UpdateInput_states : List (Int × ℚ × XrSpaceLocation) → Machine → List Machine
  | [], _ => []
  | (time, value, aimLoc) :: rest, m =>
    let m := UpdateInput time value aimLoc m
    m :: UpdateInput_states rest m

/-- The states after each of a sequence of `HandleSessionStateChange` calls. -/
def HandleSessionStateChange_states : List XrSessionState → Machine → List Machine
  | [], _ => []
  | state :: rest, m =>
    let m := HandleSessionStateChange state m
    m :: HandleSessionStateChange_states rest m

/-- The session phases of the specification's state machine. -/
inductive SessionPhase where
  | Idle
  | Active
  | Terminal
  deriving DecidableEq, Repr

/-- The phase the specification reads off the two flags: Terminal once `Running`
is cleared, else Active or Idle according to `SessionActive`. -/
def phase (app : ovrApp) : SessionPhase :=
  if !app.Running then .Terminal
  else if app.SessionActive then .Active
  else .Idle

/-- A run of the program from the entry of the main loop, on the inputs of the
successive iterations. -/
def android_main_run (sc : ovrSwapChain) (framebuffer : Nat) (is : List IterationInput) :
    Machine :=
  android_main_loop is (startMachine sc framebuffer)

/-! ## Observations on the call log -/

/-- The calls of one frame, in program order, for the frame inputs `f`; `app` is
the application state the quad layer is built from. -/
def frameCalls (f : FrameInput) (app : ovrApp) : List Call :=
  [.xrWaitFrame, .xrBeginFrame, .xrSyncActions, .xrGetActionStateFloat,
   .xrLocateSpace f.predictedDisplayTime, .xrAcquireSwapchainImage, .xrWaitSwapchainImage,
   .RenderImGuiToTexture f.imageIndex, .xrReleaseSwapchainImage,
   .xrEndFrame f.predictedDisplayTime (if f.shouldRender then 1 else 0) (quadLayer app)]

/-- The two frame-boundary calls. -/
inductive FrameMark where
  | beginFrame
  | endFrame
  deriving DecidableEq, Repr

/-- The frame-boundary mark of a call, if it is `xrBeginFrame` or `xrEndFrame`. -/
def frameMark : Call → Option FrameMark
  | .xrBeginFrame => some .beginFrame
  | .xrEndFrame _ _ _ => some .endFrame
  | _ => none

/-- The begin-frame and end-frame calls of a call log, in order. -/
def frameMarks (calls : List Call) : List FrameMark := calls.filterMap frameMark

/-- Whether a call is a swapchain-image acquire or release. -/
def isAcquireOrRelease : Call → Bool
  | .xrAcquireSwapchainImage => true
  | .xrReleaseSwapchainImage => true
  | _ => false

/-- Whether a call is one of those made while handling a runtime event: begin or
end session, attaching the action set, creating an action space. -/
def isSessionCall : Call → Bool
  | .xrBeginSession => true
  | .xrEndSession => true
  | .xrAttachSessionActionSets => true
  | .xrCreateActionSpace _ => true
  | _ => false

/-! ## Predicates used in the proofs -/

/-- Two application states that differ at most in the presence and log fields
(`PresenceSet`, `IsJoinable`, `LobbyId`, `StatusText`, `LogBuffer`). -/
def SameOutsidePresence (a b : ovrApp) : Prop :=
  b.UiSwapChain = a.UiSwapChain ∧ b.UiFramebuffer = a.UiFramebuffer ∧
  b.Resumed = a.Resumed ∧ b.SessionActive = a.SessionActive ∧ b.Running = a.Running ∧
  b.CursorX = a.CursorX ∧ b.CursorY = a.CursorY ∧
  b.TriggerPressed = a.TriggerPressed ∧ b.TriggerJustPressed = a.TriggerJustPressed ∧
  b.SelectedButton = a.SelectedButton

/-- The invariant of the main loop that links the session flag, the local
`actionsAttached` and the call log. -/
structure LoopInv (m : Machine) : Prop where
  active_attached : m.app.SessionActive = true → m.actionsAttached = true
  attach_count :
    m.calls.count Call.xrAttachSessionActionSets = if m.actionsAttached then 1 else 0
  attached_iff_begin : m.actionsAttached = true ↔ Call.xrBeginSession ∈ m.calls
  sync_after : ∀ pre post, m.calls = pre ++ Call.xrSyncActions :: post →
    Call.xrAttachSessionActionSets ∈ pre
  attach_at_first_begin : ∀ pre post,
    m.calls = pre ++ Call.xrAttachSessionActionSets :: post →
    ∃ pre', pre = pre' ++ [Call.xrBeginSession] ∧ Call.xrBeginSession ∉ pre'

/-! ## Sample inputs -/

/-- A start state with a created three-image swapchain and framebuffer 1. -/
def sampleMachine : Machine := startMachine ⟨1, 1024, 768, 3, some [11, 12, 13]⟩ 1

/-- A located aim pose with the position-valid flag set, identity orientation
and the given position. -/
def identityLoc (px py pz : ℚ) : XrSpaceLocation := ⟨2, ⟨⟨0, 0, 0, 1⟩, ⟨px, py, pz⟩⟩⟩

/-- A located aim pose, position valid, turned half a turn about the X axis, so
that it points away from the panel. -/
def awayLoc : XrSpaceLocation := ⟨2, ⟨⟨1, 0, 0, 0⟩, ⟨0, 0, 1⟩⟩⟩

/-- An aim pose whose location flags are all unset. -/
def invalidLoc : XrSpaceLocation := ⟨0, ⟨⟨0, 0, 0, 1⟩, ⟨0, 0, 1⟩⟩⟩

/-- Five input samples with the trigger values of the specification's example. -/
def sampleTriggerInputs : List (Int × ℚ × XrSpaceLocation) :=
  [(1, 0.2, invalidLoc), (2, 0.6, identityLoc 0 0 1), (3, 0.6, awayLoc),
   (4, 0.1, invalidLoc), (5, 0.7, identityLoc 0 0 1)]

/-- A pass of the user interface in which no button is activated. -/
def noClicks : ImGuiButtons := ⟨none, none, false, false, none, none, false⟩

/-- Frame inputs: render hint set, predicted display time 5, trigger at 0.6, a
valid aim pose, image 0, no button activated. -/
def sampleFrame : FrameInput := ⟨true, 5, 0.6, identityLoc 0 0 1, 0, noClicks⟩

/-- An iteration whose only event is the session state change to Ready. -/
def readyIteration : IterationInput :=
  ⟨[], [.SESSION_STATE_CHANGED .READY], sampleFrame⟩

/-- An iteration whose only event is the session state change to Exiting. -/
def exitingIteration : IterationInput :=
  ⟨[], [.SESSION_STATE_CHANGED .EXITING], sampleFrame⟩

/-! ## Swapchain teardown -/

/-- The calls `ovrSwapChain_Destroy` makes: the runtime call that destroys the
swapchain, and `free` with the pointer it is passed (`none` is `NULL`). -/
inductive TeardownCall where
  | xrDestroySwapchain (handle : Nat)
  | free (ptr : Option (List Nat))
  deriving DecidableEq, Repr

/-- The function `ovrSwapChain_Destroy`: the pool it leaves and the calls it
makes. The runtime destroy call is made only for a non-null handle;
`ColorTextures` is freed; `memset` zeroes the record. -/
def ovrSwapChain_Destroy (sc : ovrSwapChain) : ovrSwapChain × List TeardownCall :=
  let calls : List TeardownCall :=
    if sc.Handle ≠ 0 then [.xrDestroySwapchain sc.Handle] else []
  let calls := calls ++ [.free sc.ColorTextures]
  (⟨0, 0, 0, 0, none⟩, calls)

/-- Whether a teardown call is the runtime destroy call. -/
def TeardownCall.isDestroy : TeardownCall → Bool
  | .xrDestroySwapchain _ => true
  | .free _ => false

/-! ## Quaternion rotation, as the specification names it -/

/-- The Hamilton product of two quaternions `(x, y, z, w)`, `w` the scalar part. -/
def quatMul (a b : XrQuaternionf) : XrQuaternionf where
  x := a.w * b.x + a.x * b.w + a.y * b.z - a.z * b.y
  y := a.w * b.y - a.x * b.z + a.y * b.w + a.z * b.x
  z := a.w * b.z + a.x * b.y - a.y * b.x + a.z * b.w
  w := a.w * b.w - a.x * b.x - a.y * b.y - a.z * b.z

/-- The squared norm of a quaternion. -/
def quatNormSq (q : XrQuaternionf) : ℚ := q.x * q.x + q.y * q.y + q.z * q.z + q.w * q.w

/-- The conjugate of a quaternion. -/
def quatConj (q : XrQuaternionf) : XrQuaternionf := ⟨-q.x, -q.y, -q.z, q.w⟩

/-- The inverse of a quaternion: the conjugate divided by the squared norm (the
conjugate itself for a unit quaternion). -/
def quatInv (q : XrQuaternionf) : XrQuaternionf :=
  ⟨-q.x / quatNormSq q, -q.y / quatNormSq q, -q.z / quatNormSq q, q.w / quatNormSq q⟩

/-- The standard quaternion-vector rotation of the specification: the vector
part of `q * v * q^-1`, `v` taken as a quaternion with scalar part 0. -/
def quatRotate (q : XrQuaternionf) (v : XrVector3f) : XrVector3f :=
  let r := quatMul (quatMul q ⟨v.x, v.y, v.z, 0⟩) (quatInv q)
  ⟨r.x, r.y, r.z⟩

/-- A unit quaternion with rational components: a turn about the Y axis by the
angle whose half has sine 3/5 and cosine 4/5. -/
def yawQuat : XrQuaternionf := ⟨0, 3 / 5, 0, 4 / 5⟩

/-! ## Sequences of log and presence operations -/

/-- The two operations on the log buffer: a call of `AppendLog` with the text its
arguments expand to, and the `Clear Log` button (`LogBuffer[0] = 0`). -/
inductive LogOp where
  | append (msg : List Char)
  | clear
  deriving DecidableEq, Repr

/-- The effect of one log operation. -/
def applyLogOp (op : LogOp) (app : ovrApp) : ovrApp :=
  match op with
  | .append msg => AppendLog msg app
  | .clear => { app with LogBuffer := [] }

/-- The effect of a sequence of log operations, first to last. -/
def applyLogOps (ops : List LogOp) (app : ovrApp) : ovrApp :=
  ops.foldl (fun app op => applyLogOp op app) app

/-- The presence actions, each with what `rand()` and `time(NULL)` return to it
where it may call `GenerateLobbyId`. -/
inductive PresenceAction where
  | GenerateLobbyId (e : Entropy)
  | SetGroupPresence (e : Entropy)
  | ClearGroupPresence
  | LaunchInvitePanel
  | TestBuggyFlow (e : Entropy)
  | TestCorrectFlow (e : Entropy)
  deriving DecidableEq, Repr

/-- The effect of one presence action. -/
def applyPresenceAction (a : PresenceAction) (app : ovrApp) : ovrApp :=
  match a with
  | .GenerateLobbyId e => GenerateLobbyId e app
  | .SetGroupPresence e => SetGroupPresence e app
  | .ClearGroupPresence => ClearGroupPresence app
  | .LaunchInvitePanel => LaunchInvitePanel app
  | .TestBuggyFlow e => TestBuggyFlow e app
  | .TestCorrectFlow e => TestCorrectFlow e app

/-- The effect of a sequence of presence actions, first to last. -/
def applyPresenceActions (acts : List PresenceAction) (app : ovrApp) : ovrApp :=
  acts.foldl (fun app a => applyPresenceAction a app) app

/-- The presence invariant: the two flags agree, and a set presence has a
non-empty lobby id. -/
def PresenceInv (app : ovrApp) : Prop :=
  app.PresenceSet = app.IsJoinable ∧ (app.PresenceSet = true → app.LobbyId ≠ [])

/-! ## Binary32 arithmetic -/

/-- A binary32 (`float`) value. A finite value is `k * 2^(-149)` for the integer
`k` it carries: every finite binary32 number, subnormal or normal, is an integer
multiple of `2^(-149)`. The two zeros are not told apart, nor are the NaNs. -/
inductive F32 where
  | fin (k : Int)
  | pinf
  | ninf
  | nan
  deriving DecidableEq, Repr

namespace F32

/-- One step of the search for the highest set bit: move past `s` more bits if
the number has a bit above them. -/
def log2Step (s : Nat) (p : Nat × Nat) : Nat × Nat :=
  if p.1 >>> s = 0 then p else (p.1 >>> s, p.2 + s)

/-- The position of the highest set bit of `n`, that is `floor (log2 n)`, for
`1 ≤ n < 2^1024` (and `0` for `n = 0`). -/
def log2 (n : Nat) : Nat :=
  (log2Step 1 (log2Step 2 (log2Step 4 (log2Step 8 (log2Step 16 (log2Step 32
    (log2Step 64 (log2Step 128 (log2Step 256 (log2Step 512 (n, 0))))))))))).2

/-- The binary32 value nearest to `n / d` units of `2^(-149)` (`d > 0`), ties to
the even significand, with overflow to an infinity: the rounding of every
binary32 operation in the default rounding mode. Below `2^24` units the
binary32 values are the integers; from there on they are the multiples of
`2^sh`, where `sh + 23` is the position of the highest set bit. -/
def round (n : Int) (d : Nat) : F32 :=
  if d = 0 then .nan
  else
    let a := n.natAbs
    let q := a / d
    let sh := if q < 2 ^ 24 then 0 else log2 q - 23
    let den := d <<< sh
    let f := a / den
    let r := a % den
    let f := if 2 * r < den then f else if den < 2 * r then f + 1
      else if f % 2 = 0 then f else f + 1
    let mag := f <<< sh
    if 2 ^ 128 * 2 ^ 149 ≤ mag then (if n < 0 then .ninf else .pinf)
    else .fin (if n < 0 then -(mag : Int) else (mag : Int))

/-- The decimal literal `digits / 10^scale` as a `float` constant, as `1.6f` is
`dec 16 1`. -/
def dec (digits : Int) (scale : Nat) : F32 :=
  round (digits * ((2 ^ 149 : Nat) : Int)) (10 ^ scale)

/-- Conversion of an `int` to `float`. -/
def ofInt (n : Int) : F32 := round (n * ((2 ^ 149 : Nat) : Int)) 1

/-- The binary32 value nearest to `m * 2^e`, as the hexadecimal literal
`0x1.8p-3f` is `dyadic 3 (-4)`. -/
def dyadic (m : Int) (e : Int) : F32 :=
  if 0 ≤ e + 149 then round (m * ((2 ^ (e + 149).toNat : Nat) : Int)) 1
  else round m (2 ^ (-(e + 149)).toNat)

/-- Unary minus. -/
def neg : F32 → F32
  | .fin k => .fin (-k)
  | .pinf => .ninf
  | .ninf => .pinf
  | .nan => .nan

/-- Rounded addition. -/
def add : F32 → F32 → F32
  | .fin a, .fin b => round (a + b) 1
  | .nan, _ => .nan
  | _, .nan => .nan
  | .pinf, .ninf => .nan
  | .ninf, .pinf => .nan
  | .pinf, _ => .pinf
  | _, .pinf => .pinf
  | .ninf, _ => .ninf
  | _, .ninf => .ninf

/-- Rounded subtraction. -/
def sub (x y : F32) : F32 := add x (neg y)

/-- The infinity with the sign of the product of two signs. -/
def infOfSign (negative : Bool) : F32 := if negative then .ninf else .pinf

/-- Rounded multiplication. -/
def mul : F32 → F32 → F32
  | .fin a, .fin b => round (a * b) (2 ^ 149)
  | .nan, _ => .nan
  | _, .nan => .nan
  | .fin a, .pinf => if a = 0 then .nan else infOfSign (decide (a < 0))
  | .fin a, .ninf => if a = 0 then .nan else infOfSign (decide (0 < a))
  | .pinf, .fin b => if b = 0 then .nan else infOfSign (decide (b < 0))
  | .ninf, .fin b => if b = 0 then .nan else infOfSign (decide (0 < b))
  | .pinf, .pinf => .pinf
  | .ninf, .ninf => .pinf
  | .pinf, .ninf => .ninf
  | .ninf, .pinf => .ninf

/-- Rounded division. A division of a finite value or an infinity by zero is
given the value NaN here, its sign depending on the sign of the zero; the
program never divides by zero (its divisors are `1.6f`, `1.2f`, and `dz` under
the guard `dz < -0.001f`). -/
def div : F32 → F32 → F32
  | .fin a, .fin b =>
    if b = 0 then .nan
    else round (if b < 0 then -(a * ((2 ^ 149 : Nat) : Int)) else a * ((2 ^ 149 : Nat) : Int))
      b.natAbs
  | .nan, _ => .nan
  | _, .nan => .nan
  | .fin _, .pinf => .fin 0
  | .fin _, .ninf => .fin 0
  | .pinf, .fin b => if b = 0 then .nan else infOfSign (decide (b < 0))
  | .ninf, .fin b => if b = 0 then .nan else infOfSign (decide (0 < b))
  | .pinf, .pinf => .nan
  | .pinf, .ninf => .nan
  | .ninf, .pinf => .nan
  | .ninf, .ninf => .nan

/-- The comparison `x < y` of two `float` values; false when either is NaN. -/
def lt : F32 → F32 → Bool
  | .fin a, .fin b => decide (a < b)
  | .nan, _ => false
  | _, .nan => false
  | .ninf, .ninf => false
  | .ninf, _ => true
  | _, .ninf => false
  | .pinf, _ => false
  | _, .pinf => true

/-- The comparison `x <= y` of two `float` values; false when either is NaN. -/
def le : F32 → F32 → Bool
  | .fin a, .fin b => decide (a ≤ b)
  | .nan, _ => false
  | _, .nan => false
  | .ninf, _ => true
  | _, .pinf => true
  | .pinf, _ => false
  | _, .ninf => false

/-- The rational value of a finite `float`. -/
def toRat? : F32 → Option ℚ
  | .fin k => some (k / 2 ^ 149)
  | _ => none

end F32
/-! ## Input handling in binary32 arithmetic -/

/-- The OpenXR `XrVector3f`, its components as `float` values. -/
structure XrVector3f32 where
  x : F32
  y : F32
  z : F32
  deriving DecidableEq, Repr

/-- The OpenXR `XrQuaternionf`, its components as `float` values. -/
structure XrQuaternionf32 where
  x : F32
  y : F32
  z : F32
  w : F32
  deriving DecidableEq, Repr

/-- The OpenXR `XrPosef`, its components as `float` values. -/
structure XrPosef32 where
  orientation : XrQuaternionf32
  position : XrVector3f32
  deriving DecidableEq, Repr

/-- The OpenXR `XrSpaceLocation`, its pose in `float` values. -/
structure XrSpaceLocation32 where
  locationFlags : Nat
  pose : XrPosef32
  deriving DecidableEq, Repr

/-- The part of the program state that `UpdateInput` reads and writes, the
cursor as `float` values, and the log of calls. -/
structure InputState32 where
  CursorX : F32
  CursorY : F32
  TriggerPressed : Bool
  TriggerJustPressed : Bool
  calls : List Call
  deriving DecidableEq, Repr

/-- The forward direction `(dx, dy, dz)` of `UpdateInput`, each operation rounded
to binary32 as written in the source (no fused multiply-add). -/
def forward32 (q : XrQuaternionf32) : XrVector3f32 where
  x := F32.mul (F32.neg (F32.dec 20 1)) (F32.sub (F32.mul q.x q.z) (F32.mul q.w q.y))
  y := F32.mul (F32.neg (F32.dec 20 1)) (F32.add (F32.mul q.y q.z) (F32.mul q.w q.x))
  z := F32.neg (F32.sub (F32.dec 10 1)
    (F32.mul (F32.dec 20 1) (F32.add (F32.mul q.x q.x) (F32.mul q.y q.y))))

/-- The function `UpdateInput` with its `float` arithmetic in binary32: every
operation is rounded to nearest, ties to even, and every comparison is made on
the rounded values. The literals are `0.5f = dec 5 1`, `2.0f = dec 20 1`,
`0.001f = dec 1 3`, `100.0f = dec 1000 1`, `1.6f = dec 16 1`, `1.2f = dec 12 1`;
the `int` operands `0`, `UI_WIDTH`, `UI_HEIGHT` are converted to `float`. -/
def UpdateInput32 (predictedTime : Int) (triggerState : F32) (aimLoc : XrSpaceLocation32)
    (s : InputState32) : InputState32 :=
  let s := { s with calls := s.calls ++ [Call.xrSyncActions] }
  let s := { s with calls := s.calls ++ [Call.xrGetActionStateFloat] }
  let wasPressed := s.TriggerPressed
  let pressed : Bool := F32.lt (F32.dec 5 1) triggerState
  let s := { s with
    TriggerPressed := pressed
    TriggerJustPressed := pressed && !wasPressed }
  let s := { s with calls := s.calls ++ [Call.xrLocateSpace predictedTime] }
  if aimLoc.locationFlags &&& XR_SPACE_LOCATION_POSITION_VALID_BIT ≠ 0 then
    let px := aimLoc.pose.position.x
    let py := aimLoc.pose.position.y
    let pz := aimLoc.pose.position.z
    let q := aimLoc.pose.orientation
    let dx := (forward32 q).x
    let dy := (forward32 q).y
    let dz := (forward32 q).z
    let panelZ := F32.neg (F32.dec 20 1)
    if F32.lt dz (F32.neg (F32.dec 1 3)) then
      let t := F32.div (F32.sub panelZ pz) dz
      if F32.lt (F32.ofInt 0) t ∧ F32.lt t (F32.dec 1000 1) then
        let hitX := F32.add px (F32.mul dx t)
        let hitY := F32.add py (F32.mul dy t)
        let panelWidth := F32.dec 16 1
        let panelHeight := F32.dec 12 1
        let cursorX := F32.mul (F32.sub (F32.dec 5 1) (F32.div hitX panelWidth))
          (F32.ofInt UI_WIDTH)
        let cursorY := F32.mul (F32.add (F32.div hitY panelHeight) (F32.dec 5 1))
          (F32.ofInt UI_HEIGHT)
        let cursorX := if F32.lt cursorX (F32.ofInt 0) then F32.ofInt 0 else cursorX
        let cursorX := if F32.lt (F32.ofInt UI_WIDTH) cursorX then F32.ofInt UI_WIDTH
          else cursorX
        let cursorY := if F32.lt cursorY (F32.ofInt 0) then F32.ofInt 0 else cursorY
        let cursorY := if F32.lt (F32.ofInt UI_HEIGHT) cursorY then F32.ofInt UI_HEIGHT
          else cursorY
        { s with CursorX := cursorX, CursorY := cursorY }
      else s
    else s
  else s

/-- The intersection parameter `t = (-2 - pz) / dz`, in binary32. -/
def rayT32 (aimLoc : XrSpaceLocation32) : F32 :=
  F32.div (F32.sub (F32.neg (F32.dec 20 1)) aimLoc.pose.position.z)
    (forward32 aimLoc.pose.orientation).z

/-- The hit abscissa `hitX = px + dx * t`, in binary32. -/
def hitX32 (aimLoc : XrSpaceLocation32) : F32 :=
  F32.add aimLoc.pose.position.x (F32.mul (forward32 aimLoc.pose.orientation).x (rayT32 aimLoc))

/-- The hit ordinate `hitY = py + dy * t`, in binary32. -/
def hitY32 (aimLoc : XrSpaceLocation32) : F32 :=
  F32.add aimLoc.pose.position.y (F32.mul (forward32 aimLoc.pose.orientation).y (rayT32 aimLoc))

/-- The clamp of the specification on `float` values: `lo` below `lo`, `hi`
above `hi`, the value itself in between (and for a NaN). -/
def specClamp32 (v lo hi : F32) : F32 :=
  if F32.lt v lo then lo else if F32.lt hi v then hi else v

/-- An input state with the cursor at `(100, 200)` and the trigger released. -/
def sampleInput32 : InputState32 := ⟨F32.ofInt 100, F32.ofInt 200, false, false, []⟩

/-- A valid unit aim pose at `(0, 0, -1.95f)` whose exact forward Z-component
is above `-0.001` while its binary32 value is `-0.00100004673`, below
`-0.001f`: orientation `(0x1.b484a2p-3, 0x1.59027ap-1, 0, 0x1.6a383ap-1)`. -/
def grazingHitLoc32 : XrSpaceLocation32 :=
  ⟨2, ⟨⟨F32.dyadic 0x1b484a2 (-27), F32.dyadic 0x159027a (-25), F32.ofInt 0,
        F32.dyadic 0x16a383a (-25)⟩,
      ⟨F32.ofInt 0, F32.ofInt 0, F32.neg (F32.dec 195 2)⟩⟩⟩

/-- A valid unit aim pose at `(0, 0, -1.95f)` whose exact forward Z-component
is below `-0.001` while its binary32 value is `-0.00099998713`, above
`-0.001f`: orientation `(0x1.69db8cp-1, 0, 0, 0x1.6a383ap-1)`. -/
def grazingMissLoc32 : XrSpaceLocation32 :=
  ⟨2, ⟨⟨F32.dyadic 0x169db8c (-25), F32.ofInt 0, F32.ofInt 0, F32.dyadic 0x16a383a (-25)⟩,
      ⟨F32.ofInt 0, F32.ofInt 0, F32.neg (F32.dec 195 2)⟩⟩⟩

/-- A valid unit aim pose whose exact intersection parameter is above 100 while
its binary32 value is `99.99993`: orientation
`(0x1.6537a8p-1, 0, 0, 0x1.6ecbecp-1)`, position `(0, 0, 0x1.4a9466p-1)`. -/
def farHitLoc32 : XrSpaceLocation32 :=
  ⟨2, ⟨⟨F32.dyadic 0x16537a8 (-25), F32.ofInt 0, F32.ofInt 0, F32.dyadic 0x16ecbec (-25)⟩,
      ⟨F32.ofInt 0, F32.ofInt 0, F32.dyadic 0x14a9466 (-25)⟩⟩⟩

/-- A valid aim pose with identity orientation at `(0, 0, 98)`: the computed
intersection parameter is exactly `100`, not below `100.0f`. -/
def outOfRangeLoc32 : XrSpaceLocation32 :=
  ⟨2, ⟨⟨F32.ofInt 0, F32.ofInt 0, F32.ofInt 0, F32.ofInt 1⟩,
      ⟨F32.ofInt 0, F32.ofInt 0, F32.ofInt 98⟩⟩⟩

/-- An aim pose whose location flags are all unset, in `float` values. -/
def invalidLoc32 : XrSpaceLocation32 :=
  ⟨0, ⟨⟨F32.ofInt 0, F32.ofInt 0, F32.ofInt 0, F32.ofInt 1⟩,
      ⟨F32.ofInt 0, F32.ofInt 0, F32.ofInt 1⟩⟩⟩

end XrPresenceTest

namespace XrPresenceTest

/-! ## Pointer projection -/

theorem ifClamp_eq_specClamp (v hi : ℚ) (hhi : 0 ≤ hi) :
    (if (if v < 0 then 0 else v) > hi then hi else (if v < 0 then 0 else v))
      = specClamp v 0 hi := by
  unfold specClamp
  by_cases h0 : v < 0
  · have h1 : ¬ (0 : ℚ) > hi := not_lt.mpr hhi
    have h2 : min v hi ≤ 0 := le_trans (min_le_left v hi) (le_of_lt h0)
    simp [h0, h1, max_eq_left h2]
  · have h0le : 0 ≤ v := not_lt.mp h0
    by_cases h1 : v > hi
    · simp [h0, h1, min_eq_right (le_of_lt h1), max_eq_right hhi]
    · have h1le : v ≤ hi := not_lt.mp h1
      simp [h0, h1, min_eq_left h1le, max_eq_right h0le]

theorem UpdateInput_cursor_hit (time : Int) (value : ℚ) (aimLoc : XrSpaceLocation) (m : Machine)
    (hvalid : aimLoc.locationFlags &&& XR_SPACE_LOCATION_POSITION_VALID_BIT ≠ 0)
    (hdz : (forward aimLoc.pose.orientation).z < -0.001)
    (ht0 : 0 < rayT aimLoc) (ht1 : rayT aimLoc < 100) :
    (UpdateInput time value aimLoc m).app.CursorX
        = specClamp ((0.5 - hitX aimLoc / 1.6) * 1024) 0 1024 ∧
    (UpdateInput time value aimLoc m).app.CursorY
        = specClamp ((hitY aimLoc / 1.2 + 0.5) * 768) 0 768 := by
  have ht0' : 0 < (-2 - aimLoc.pose.position.z) / (forward aimLoc.pose.orientation).z := ht0
  have ht1' : (-2 - aimLoc.pose.position.z) / (forward aimLoc.pose.orientation).z < 100 := ht1
  have hz : ((-2.0 : ℚ)) = -2 := by norm_num
  have hc : ((100.0 : ℚ)) = 100 := by norm_num
  unfold UpdateInput
  simp only [hvalid, hdz, hz, hc, ht0', ht1', ne_eq, not_false_eq_true, if_true, and_self,
    gt_iff_lt, UI_WIDTH, UI_HEIGHT]
  constructor
  · have := ifClamp_eq_specClamp ((0.5 - hitX aimLoc / 1.6) * 1024) 1024 (by norm_num)
    simpa [hitX, rayT] using this
  · have := ifClamp_eq_specClamp ((hitY aimLoc / 1.2 + 0.5) * 768) 768 (by norm_num)
    simpa [hitY, rayT] using this

theorem forward_identity : forward ⟨0, 0, 0, 1⟩ = ⟨0, 0, -1⟩ := by
  norm_num [forward]

theorem rayT_identity (flags : Nat) (px py pz : ℚ) :
    rayT ⟨flags, ⟨⟨0, 0, 0, 1⟩, ⟨px, py, pz⟩⟩⟩ = 2 + pz := by
  simp [rayT, forward]
  ring

theorem hitX_identity (flags : Nat) (px py pz : ℚ) :
    hitX ⟨flags, ⟨⟨0, 0, 0, 1⟩, ⟨px, py, pz⟩⟩⟩ = px := by
  simp [hitX, forward]

theorem hitY_identity (flags : Nat) (px py pz : ℚ) :
    hitY ⟨flags, ⟨⟨0, 0, 0, 1⟩, ⟨px, py, pz⟩⟩⟩ = py := by
  simp [hitY, forward]

theorem specClamp_mem (v hi : ℚ) (hhi : 0 ≤ hi) :
    0 ≤ specClamp v 0 hi ∧ specClamp v 0 hi ≤ hi := by
  unfold specClamp
  exact ⟨le_max_left _ _, max_le hhi (min_le_right _ _)⟩

/-- Claim C2. For an aim pose that produces a valid hit, however far the hit
point lies from the panel, the new cursor satisfies `0 ≤ CursorX ≤ 1024` and
`0 ≤ CursorY ≤ 768`. -/
theorem UpdateInput_hit_cursor_in_bounds (time : Int) (value : ℚ) (aimLoc : XrSpaceLocation)
    (m : Machine)
    (hvalid : aimLoc.locationFlags &&& XR_SPACE_LOCATION_POSITION_VALID_BIT ≠ 0)
    (hdz : (forward aimLoc.pose.orientation).z < -0.001)
    (ht0 : 0 < rayT aimLoc) (ht1 : rayT aimLoc < 100) :
    0 ≤ (UpdateInput time value aimLoc m).app.CursorX ∧
    (UpdateInput time value aimLoc m).app.CursorX ≤ 1024 ∧
    0 ≤ (UpdateInput time value aimLoc m).app.CursorY ∧
    (UpdateInput time value aimLoc m).app.CursorY ≤ 768 := by
  obtain ⟨hx, hy⟩ := UpdateInput_cursor_hit time value aimLoc m hvalid hdz ht0 ht1
  rw [hx, hy]
  have bx := specClamp_mem ((0.5 - hitX aimLoc / 1.6) * 1024) 1024 (by norm_num)
  have byy := specClamp_mem ((hitY aimLoc / 1.2 + 0.5) * 768) 768 (by norm_num)
  exact ⟨bx.1, bx.2, byy.1, byy.2⟩

/-- Claim C4. With identity orientation `(0,0,0,1)` the forward vector is
`(0,0,-1)`; for a valid position with `-2 < pz < 98`, `t = 2 + pz` and the cursor
becomes `(clamp((0.5 - px/1.6)*1024), clamp((py/1.2 + 0.5)*768))`; position
`(0,0,1)` gives `t = 3` and pixel `(512, 384)`, position `(0.8,0,1)` gives pixel
X exactly `0` and Y `384`. -/
theorem UpdateInput_identity_orientation (time : Int) (value : ℚ) (flags : Nat)
    (px py pz : ℚ) (m : Machine)
    (hvalid : flags &&& XR_SPACE_LOCATION_POSITION_VALID_BIT ≠ 0)
    (hlo : -2 < pz) (hhi : pz < 98) :
    forward ⟨0, 0, 0, 1⟩ = ⟨0, 0, -1⟩ ∧
    rayT ⟨flags, ⟨⟨0, 0, 0, 1⟩, ⟨px, py, pz⟩⟩⟩ = 2 + pz ∧
    (UpdateInput time value ⟨flags, ⟨⟨0, 0, 0, 1⟩, ⟨px, py, pz⟩⟩⟩ m).app.CursorX
      = specClamp ((0.5 - px / 1.6) * 1024) 0 1024 ∧
    (UpdateInput time value ⟨flags, ⟨⟨0, 0, 0, 1⟩, ⟨px, py, pz⟩⟩⟩ m).app.CursorY
      = specClamp ((py / 1.2 + 0.5) * 768) 0 768 ∧
    rayT ⟨flags, ⟨⟨0, 0, 0, 1⟩, ⟨0, 0, 1.0⟩⟩⟩ = 3.0 ∧
    (UpdateInput time value ⟨flags, ⟨⟨0, 0, 0, 1⟩, ⟨0, 0, 1.0⟩⟩⟩ m).app.CursorX = 512 ∧
    (UpdateInput time value ⟨flags, ⟨⟨0, 0, 0, 1⟩, ⟨0, 0, 1.0⟩⟩⟩ m).app.CursorY = 384 ∧
    (UpdateInput time value ⟨flags, ⟨⟨0, 0, 0, 1⟩, ⟨0.8, 0, 1.0⟩⟩⟩ m).app.CursorX = 0 ∧
    (UpdateInput time value ⟨flags, ⟨⟨0, 0, 0, 1⟩, ⟨0.8, 0, 1.0⟩⟩⟩ m).app.CursorY = 384 := by
  have key : ∀ qx qy qz : ℚ, -2 < qz → qz < 98 →
      (UpdateInput time value ⟨flags, ⟨⟨0, 0, 0, 1⟩, ⟨qx, qy, qz⟩⟩⟩ m).app.CursorX
        = specClamp ((0.5 - qx / 1.6) * 1024) 0 1024 ∧
      (UpdateInput time value ⟨flags, ⟨⟨0, 0, 0, 1⟩, ⟨qx, qy, qz⟩⟩⟩ m).app.CursorY
        = specClamp ((qy / 1.2 + 0.5) * 768) 0 768 := by
    intro qx qy qz h1 h2
    have h := UpdateInput_cursor_hit time value ⟨flags, ⟨⟨0, 0, 0, 1⟩, ⟨qx, qy, qz⟩⟩⟩ m hvalid
      (by rw [forward_identity]; norm_num)
      (by rw [rayT_identity]; linarith) (by rw [rayT_identity]; linarith)
    rw [hitX_identity, hitY_identity] at h
    exact h
  have k1 := key 0 0 1.0 (by norm_num) (by norm_num)
  have k2 := key 0.8 0 1.0 (by norm_num) (by norm_num)
  refine ⟨forward_identity, rayT_identity _ _ _ _, (key px py pz hlo hhi).1,
    (key px py pz hlo hhi).2, ?_, ?_, ?_, ?_, ?_⟩
  · rw [rayT_identity]; norm_num
  · rw [k1.1]; norm_num [specClamp]
  · rw [k1.2]; norm_num [specClamp]
  · rw [k2.1]; norm_num [specClamp]
  · rw [k2.2]; norm_num [specClamp]

theorem UpdateInput_hit_cursor_in_bounds_witness :
    (identityLoc 500 (-300) 1).locationFlags &&& XR_SPACE_LOCATION_POSITION_VALID_BIT ≠ 0 ∧
    (forward (identityLoc 500 (-300) 1).pose.orientation).z < -0.001 ∧
    0 < rayT (identityLoc 500 (-300) 1) ∧ rayT (identityLoc 500 (-300) 1) < 100 ∧
    0 ≤ (UpdateInput 7 0 (identityLoc 500 (-300) 1) sampleMachine).app.CursorX ∧
    (UpdateInput 7 0 (identityLoc 500 (-300) 1) sampleMachine).app.CursorX ≤ 1024 ∧
    0 ≤ (UpdateInput 7 0 (identityLoc 500 (-300) 1) sampleMachine).app.CursorY ∧
    (UpdateInput 7 0 (identityLoc 500 (-300) 1) sampleMachine).app.CursorY ≤ 768 :=
  ⟨by decide, by norm_num [identityLoc, forward], by norm_num [identityLoc, rayT, forward],
    by norm_num [identityLoc, rayT, forward],
    UpdateInput_hit_cursor_in_bounds 7 0 (identityLoc 500 (-300) 1) sampleMachine (by decide)
      (by norm_num [identityLoc, forward]) (by norm_num [identityLoc, rayT, forward])
      (by norm_num [identityLoc, rayT, forward])⟩

theorem UpdateInput_identity_orientation_witness :
    2 &&& XR_SPACE_LOCATION_POSITION_VALID_BIT ≠ 0 ∧ (-2 : ℚ) < 1 ∧ (1 : ℚ) < 98 ∧
    forward ⟨0, 0, 0, 1⟩ = ⟨0, 0, -1⟩ ∧
    rayT ⟨2, ⟨⟨0, 0, 0, 1⟩, ⟨0.4, 0.3, 1⟩⟩⟩ = 2 + 1 ∧
    (UpdateInput 7 0 ⟨2, ⟨⟨0, 0, 0, 1⟩, ⟨0.4, 0.3, 1⟩⟩⟩ sampleMachine).app.CursorX
      = specClamp ((0.5 - 0.4 / 1.6) * 1024) 0 1024 ∧
    (UpdateInput 7 0 ⟨2, ⟨⟨0, 0, 0, 1⟩, ⟨0.4, 0.3, 1⟩⟩⟩ sampleMachine).app.CursorY
      = specClamp ((0.3 / 1.2 + 0.5) * 768) 0 768 ∧
    rayT ⟨2, ⟨⟨0, 0, 0, 1⟩, ⟨0, 0, 1.0⟩⟩⟩ = 3.0 ∧
    (UpdateInput 7 0 ⟨2, ⟨⟨0, 0, 0, 1⟩, ⟨0, 0, 1.0⟩⟩⟩ sampleMachine).app.CursorX = 512 ∧
    (UpdateInput 7 0 ⟨2, ⟨⟨0, 0, 0, 1⟩, ⟨0, 0, 1.0⟩⟩⟩ sampleMachine).app.CursorY = 384 ∧
    (UpdateInput 7 0 ⟨2, ⟨⟨0, 0, 0, 1⟩, ⟨0.8, 0, 1.0⟩⟩⟩ sampleMachine).app.CursorX = 0 ∧
    (UpdateInput 7 0 ⟨2, ⟨⟨0, 0, 0, 1⟩, ⟨0.8, 0, 1.0⟩⟩⟩ sampleMachine).app.CursorY = 384 :=
  ⟨by decide, by norm_num, by norm_num,
    UpdateInput_identity_orientation 7 0 2 0.4 0.3 1 sampleMachine (by decide)
      (by norm_num) (by norm_num)⟩

/-! ## Trigger edge detection -/

theorem UpdateInput_trigger (time : Int) (value : ℚ) (aimLoc : XrSpaceLocation) (m : Machine) :
    (UpdateInput time value aimLoc m).app.TriggerPressed = decide (value > 0.5) ∧
    (UpdateInput time value aimLoc m).app.TriggerJustPressed
      = (decide (value > 0.5) && !m.app.TriggerPressed) := by
  unfold UpdateInput
  simp only [Machine.emit]
  by_cases h1 : aimLoc.locationFlags &&& XR_SPACE_LOCATION_POSITION_VALID_BIT ≠ 0
  · by_cases h2 : (forward aimLoc.pose.orientation).z < -0.001
    · by_cases h3 : ((-2.0 : ℚ) - aimLoc.pose.position.z) / (forward aimLoc.pose.orientation).z > 0 ∧
          ((-2.0 : ℚ) - aimLoc.pose.position.z) / (forward aimLoc.pose.orientation).z < 100.0
      · simp only [if_pos h1, if_pos h2, if_pos h3, and_self]
      · simp only [if_pos h1, if_pos h2, if_neg h3, and_self]
    · simp only [if_pos h1, if_neg h2, and_self]
  · simp only [if_neg h1, and_self]

theorem UpdateInput_states_trigger (ins : List (Int × ℚ × XrSpaceLocation)) (m : Machine) :
    (UpdateInput_states ins m).map (fun s => (s.app.TriggerPressed, s.app.TriggerJustPressed))
      = specTriggerEdges m.app.TriggerPressed (ins.map (fun i => i.2.1)) := by
  induction ins generalizing m with
  | nil => rfl
  | cons i rest ih =>
    obtain ⟨time, value, aimLoc⟩ := i
    have h := UpdateInput_trigger time value aimLoc m
    simp only [UpdateInput_states, List.map_cons, specTriggerEdges, ih, h.1, h.2]

/-- Claim C6. Each `UpdateInput` sets `TriggerPressed = (value > 0.5)` and
`TriggerJustPressed = (TriggerPressed and not the previous TriggerPressed)`; so
along every sequence of sampled values, starting from `TriggerPressed = false`,
the flags follow the specification's rule, and the values
`[0.2, 0.6, 0.6, 0.1, 0.7]` yield pressed `[F,T,T,F,T]` and justPressed
`[F,T,F,F,T]`. -/
theorem UpdateInput_trigger_edges (ins : List (Int × ℚ × XrSpaceLocation)) (m : Machine)
    (h0 : m.app.TriggerPressed = false) :
    (∀ (time : Int) (value : ℚ) (aimLoc : XrSpaceLocation) (s : Machine),
      (UpdateInput time value aimLoc s).app.TriggerPressed = decide (value > 0.5) ∧
      (UpdateInput time value aimLoc s).app.TriggerJustPressed
        = ((UpdateInput time value aimLoc s).app.TriggerPressed && !s.app.TriggerPressed)) ∧
    (UpdateInput_states ins m).map (fun s => (s.app.TriggerPressed, s.app.TriggerJustPressed))
      = specTriggerEdges false (ins.map (fun i => i.2.1)) ∧
    (ins.map (fun i => i.2.1) = [0.2, 0.6, 0.6, 0.1, 0.7] →
      (UpdateInput_states ins m).map (fun s => s.app.TriggerPressed)
        = [false, true, true, false, true] ∧
      (UpdateInput_states ins m).map (fun s => s.app.TriggerJustPressed)
        = [false, true, false, false, true]) := by
  have hgen := UpdateInput_states_trigger ins m
  rw [h0] at hgen
  refine ⟨?_, hgen, ?_⟩
  · intro time value aimLoc s
    have h := UpdateInput_trigger time value aimLoc s
    exact ⟨h.1, by rw [h.2, h.1]⟩
  · intro hvals
    rw [hvals] at hgen
    have e : specTriggerEdges false [0.2, 0.6, 0.6, 0.1, 0.7]
        = [(false, false), (true, true), (true, false), (false, false), (true, true)] := by
      norm_num [specTriggerEdges]
    rw [e] at hgen
    have h1 := congrArg (List.map Prod.fst) hgen
    have h2 := congrArg (List.map Prod.snd) hgen
    simp only [List.map_map] at h1 h2
    exact ⟨h1, h2⟩

theorem UpdateInput_trigger_edges_witness :
    sampleMachine.app.TriggerPressed = false ∧
    sampleTriggerInputs.map (fun i => i.2.1) = [0.2, 0.6, 0.6, 0.1, 0.7] ∧
    (UpdateInput_states sampleTriggerInputs sampleMachine).map (fun s => s.app.TriggerPressed)
      = [false, true, true, false, true] ∧
    (UpdateInput_states sampleTriggerInputs sampleMachine).map (fun s => s.app.TriggerJustPressed)
      = [false, true, false, false, true] :=
  ⟨rfl, rfl,
    (UpdateInput_trigger_edges sampleTriggerInputs sampleMachine rfl).2.2 rfl⟩

/-! ## Session state machine -/

theorem SameOutsidePresence.refl (a : ovrApp) : SameOutsidePresence a a :=
  ⟨rfl, rfl, rfl, rfl, rfl, rfl, rfl, rfl, rfl, rfl⟩

theorem SameOutsidePresence.trans {a b c : ovrApp} (h1 : SameOutsidePresence a b)
    (h2 : SameOutsidePresence b c) : SameOutsidePresence a c := by
  obtain ⟨a1, a2, a3, a4, a5, a6, a7, a8, a9, a10⟩ := h1
  obtain ⟨b1, b2, b3, b4, b5, b6, b7, b8, b9, b10⟩ := h2
  exact ⟨b1.trans a1, b2.trans a2, b3.trans a3, b4.trans a4, b5.trans a5, b6.trans a6,
    b7.trans a7, b8.trans a8, b9.trans a9, b10.trans a10⟩

theorem SameOutsidePresence.update (a : ovrApp) (p j : Bool) (l t b : List Char) :
    SameOutsidePresence a { a with
      PresenceSet := p, IsJoinable := j, LobbyId := l, StatusText := t, LogBuffer := b } :=
  ⟨rfl, rfl, rfl, rfl, rfl, rfl, rfl, rfl, rfl, rfl⟩

@[simp] theorem AppendLog_UiSwapChain (msg : List Char) (app : ovrApp) :
    (AppendLog msg app).UiSwapChain = app.UiSwapChain := rfl

@[simp] theorem AppendLog_UiFramebuffer (msg : List Char) (app : ovrApp) :
    (AppendLog msg app).UiFramebuffer = app.UiFramebuffer := rfl

@[simp] theorem AppendLog_Resumed (msg : List Char) (app : ovrApp) :
    (AppendLog msg app).Resumed = app.Resumed := rfl

@[simp] theorem AppendLog_SessionActive (msg : List Char) (app : ovrApp) :
    (AppendLog msg app).SessionActive = app.SessionActive := rfl

@[simp] theorem AppendLog_Running (msg : List Char) (app : ovrApp) :
    (AppendLog msg app).Running = app.Running := rfl

@[simp] theorem AppendLog_CursorX (msg : List Char) (app : ovrApp) :
    (AppendLog msg app).CursorX = app.CursorX := rfl

@[simp] theorem AppendLog_CursorY (msg : List Char) (app : ovrApp) :
    (AppendLog msg app).CursorY = app.CursorY := rfl

@[simp] theorem AppendLog_TriggerPressed (msg : List Char) (app : ovrApp) :
    (AppendLog msg app).TriggerPressed = app.TriggerPressed := rfl

@[simp] theorem AppendLog_TriggerJustPressed (msg : List Char) (app : ovrApp) :
    (AppendLog msg app).TriggerJustPressed = app.TriggerJustPressed := rfl

@[simp] theorem AppendLog_SelectedButton (msg : List Char) (app : ovrApp) :
    (AppendLog msg app).SelectedButton = app.SelectedButton := rfl

@[simp] theorem AppendLog_PresenceSet (msg : List Char) (app : ovrApp) :
    (AppendLog msg app).PresenceSet = app.PresenceSet := rfl

@[simp] theorem AppendLog_IsJoinable (msg : List Char) (app : ovrApp) :
    (AppendLog msg app).IsJoinable = app.IsJoinable := rfl

@[simp] theorem AppendLog_LobbyId (msg : List Char) (app : ovrApp) :
    (AppendLog msg app).LobbyId = app.LobbyId := rfl

@[simp] theorem AppendLog_StatusText (msg : List Char) (app : ovrApp) :
    (AppendLog msg app).StatusText = app.StatusText := rfl

theorem AppendLog_same (msg : List Char) (app : ovrApp) :
    SameOutsidePresence app (AppendLog msg app) :=
  ⟨rfl, rfl, rfl, rfl, rfl, rfl, rfl, rfl, rfl, rfl⟩

theorem GenerateLobbyId_same (e : Entropy) (app : ovrApp) :
    SameOutsidePresence app (GenerateLobbyId e app) := by
  simp only [GenerateLobbyId, SameOutsidePresence, AppendLog_UiSwapChain, AppendLog_UiFramebuffer,
    AppendLog_Resumed, AppendLog_SessionActive, AppendLog_Running, AppendLog_CursorX,
    AppendLog_CursorY, AppendLog_TriggerPressed, AppendLog_TriggerJustPressed,
    AppendLog_SelectedButton, and_self]

theorem SetGroupPresence_same (e : Entropy) (app : ovrApp) :
    SameOutsidePresence app (SetGroupPresence e app) := by
  have h := GenerateLobbyId_same e app
  simp only [SameOutsidePresence] at h
  simp only [SetGroupPresence, SameOutsidePresence, AppendLog_UiSwapChain, AppendLog_UiFramebuffer,
    AppendLog_Resumed, AppendLog_SessionActive, AppendLog_Running, AppendLog_CursorX,
    AppendLog_CursorY, AppendLog_TriggerPressed, AppendLog_TriggerJustPressed,
    AppendLog_SelectedButton]
  split <;> simp only [h, and_self]

theorem ClearGroupPresence_same (app : ovrApp) :
    SameOutsidePresence app (ClearGroupPresence app) := by
  simp only [ClearGroupPresence, SameOutsidePresence, AppendLog_UiSwapChain,
    AppendLog_UiFramebuffer,
    AppendLog_Resumed, AppendLog_SessionActive, AppendLog_Running, AppendLog_CursorX,
    AppendLog_CursorY, AppendLog_TriggerPressed, AppendLog_TriggerJustPressed,
    AppendLog_SelectedButton, and_self]

theorem LaunchInvitePanel_same (app : ovrApp) :
    SameOutsidePresence app (LaunchInvitePanel app) := by
  simp only [LaunchInvitePanel, SameOutsidePresence, AppendLog_UiSwapChain,
    AppendLog_UiFramebuffer,
    AppendLog_Resumed, AppendLog_SessionActive, AppendLog_Running, AppendLog_CursorX,
    AppendLog_CursorY, AppendLog_TriggerPressed, AppendLog_TriggerJustPressed,
    AppendLog_SelectedButton, AppendLog_PresenceSet, AppendLog_IsJoinable]
  split_ifs <;> simp only [AppendLog_UiSwapChain,
    AppendLog_UiFramebuffer,
    AppendLog_Resumed, AppendLog_SessionActive, AppendLog_Running, AppendLog_CursorX,
    AppendLog_CursorY, AppendLog_TriggerPressed, AppendLog_TriggerJustPressed,
    AppendLog_SelectedButton, and_self]

theorem TestBuggyFlow_same (e : Entropy) (app : ovrApp) :
    SameOutsidePresence app (TestBuggyFlow e app) := by
  unfold TestBuggyFlow
  exact ((((AppendLog_same _ app).trans (AppendLog_same _ _)).trans (AppendLog_same _ _)).trans
    (LaunchInvitePanel_same _)).trans (SetGroupPresence_same e _)

theorem TestCorrectFlow_same (e : Entropy) (app : ovrApp) :
    SameOutsidePresence app (TestCorrectFlow e app) := by
  unfold TestCorrectFlow
  exact ((((AppendLog_same _ app).trans (AppendLog_same _ _)).trans
    (GenerateLobbyId_same e _)).trans (SetGroupPresence_same e _)).trans (AppendLog_same _ _)

theorem RenderImGuiToTexture_frame (ui : ImGuiButtons) (m : Machine) :
    (RenderImGuiToTexture ui m).calls = m.calls ∧
    (RenderImGuiToTexture ui m).actionsAttached = m.actionsAttached ∧
    (RenderImGuiToTexture ui m).g_ImGuiInitialized = m.g_ImGuiInitialized ∧
    SameOutsidePresence m.app (RenderImGuiToTexture ui m).app := by
  have h1 : ∀ a : ovrApp, SameOutsidePresence a (match ui.generateLobby with
      | some e => GenerateLobbyId e a
      | none => a) := by
    intro a
    cases ui.generateLobby
    · exact SameOutsidePresence.refl _
    · exact GenerateLobbyId_same _ _
  have h2 : ∀ a : ovrApp, SameOutsidePresence a (match ui.setPresence with
      | some e => SetGroupPresence e a
      | none => a) := by
    intro a
    cases ui.setPresence
    · exact SameOutsidePresence.refl _
    · exact SetGroupPresence_same _ _
  have h3 : ∀ a : ovrApp,
      SameOutsidePresence a (if ui.clearPresence then ClearGroupPresence a else a) := by
    intro a
    cases ui.clearPresence
    · exact SameOutsidePresence.refl _
    · exact ClearGroupPresence_same _
  have h4 : ∀ a : ovrApp,
      SameOutsidePresence a (if ui.openInvitePanel then LaunchInvitePanel a else a) := by
    intro a
    cases ui.openInvitePanel
    · exact SameOutsidePresence.refl _
    · exact LaunchInvitePanel_same _
  have h5 : ∀ a : ovrApp, SameOutsidePresence a (match ui.correctFlow with
      | some e => TestCorrectFlow e a
      | none => a) := by
    intro a
    cases ui.correctFlow
    · exact SameOutsidePresence.refl _
    · exact TestCorrectFlow_same _ _
  have h6 : ∀ a : ovrApp, SameOutsidePresence a (match ui.buggyFlow with
      | some e => TestBuggyFlow e a
      | none => a) := by
    intro a
    cases ui.buggyFlow
    · exact SameOutsidePresence.refl _
    · exact TestBuggyFlow_same _ _
  have h7 : ∀ a : ovrApp,
      SameOutsidePresence a (if ui.clearLog then { a with LogBuffer := [] } else a) := by
    intro a
    cases ui.clearLog
    · exact SameOutsidePresence.refl _
    · exact SameOutsidePresence.update a _ _ _ _ _
  unfold RenderImGuiToTexture
  by_cases hg : (!m.g_ImGuiInitialized) = true
  · rw [if_pos hg]
    exact ⟨rfl, rfl, rfl, SameOutsidePresence.refl _⟩
  · rw [if_neg hg]
    refine ⟨rfl, rfl, rfl, ?_⟩
    refine SameOutsidePresence.trans ?_ (h7 _)
    refine SameOutsidePresence.trans ?_ (h6 _)
    refine SameOutsidePresence.trans ?_ (h5 _)
    refine SameOutsidePresence.trans ?_ (h4 _)
    refine SameOutsidePresence.trans ?_ (h3 _)
    refine SameOutsidePresence.trans ?_ (h2 _)
    exact h1 _

theorem HandleSessionStateChange_READY (m : Machine) :
    HandleSessionStateChange .READY m =
      { m with
        app := AppendLog "VR Session started!".toList { m.app with SessionActive := true }
        calls := m.calls ++ [.xrBeginSession] } := rfl

theorem HandleSessionStateChange_STOPPING (m : Machine) :
    HandleSessionStateChange .STOPPING m =
      { m with
        app := AppendLog "VR Session stopped".toList { m.app with SessionActive := false }
        calls := m.calls ++ [.xrEndSession] } := rfl

theorem HandleSessionStateChange_EXITING (m : Machine) :
    HandleSessionStateChange .EXITING m = { m with app := { m.app with Running := false } } := rfl

theorem HandleSessionStateChange_LOSS_PENDING (m : Machine) :
    HandleSessionStateChange .LOSS_PENDING m
      = { m with app := { m.app with Running := false } } := rfl

/-- Claim C7. `HandleSessionStateChange` implements the session state machine:
Ready calls begin-session and sets `SessionActive`, Stopping calls end-session
and clears it, Exiting and LossPending clear `Running`, every other session
state changes nothing; from an Idle state the events
`[Ready, Stopping, Ready, Exiting]` drive the phases Active, Idle, Active,
Terminal. -/
theorem HandleSessionStateChange_state_machine (m : Machine) :
    ((HandleSessionStateChange .READY m).app.SessionActive = true ∧
      (HandleSessionStateChange .READY m).app.Running = m.app.Running ∧
      (HandleSessionStateChange .READY m).calls = m.calls ++ [.xrBeginSession]) ∧
    ((HandleSessionStateChange .STOPPING m).app.SessionActive = false ∧
      (HandleSessionStateChange .STOPPING m).app.Running = m.app.Running ∧
      (HandleSessionStateChange .STOPPING m).calls = m.calls ++ [.xrEndSession]) ∧
    ((HandleSessionStateChange .EXITING m).app.Running = false ∧
      (HandleSessionStateChange .EXITING m).app.SessionActive = m.app.SessionActive ∧
      (HandleSessionStateChange .EXITING m).calls = m.calls) ∧
    ((HandleSessionStateChange .LOSS_PENDING m).app.Running = false ∧
      (HandleSessionStateChange .LOSS_PENDING m).app.SessionActive = m.app.SessionActive ∧
      (HandleSessionStateChange .LOSS_PENDING m).calls = m.calls) ∧
    (HandleSessionStateChange .UNKNOWN m = m ∧ HandleSessionStateChange .IDLE m = m ∧
      HandleSessionStateChange .SYNCHRONIZED m = m ∧ HandleSessionStateChange .VISIBLE m = m ∧
      HandleSessionStateChange .FOCUSED m = m) ∧
    (phase m.app = .Idle →
      (HandleSessionStateChange_states [.READY, .STOPPING, .READY, .EXITING] m).map
          (fun s => phase s.app) = [.Active, .Idle, .Active, .Terminal] ∧
      (HandleSessionStateChange_states [.READY, .STOPPING, .READY, .EXITING] m).map
          (fun s => s.calls) =
        [m.calls ++ [.xrBeginSession],
         m.calls ++ [.xrBeginSession, .xrEndSession],
         m.calls ++ [.xrBeginSession, .xrEndSession, .xrBeginSession],
         m.calls ++ [.xrBeginSession, .xrEndSession, .xrBeginSession]]) := by
  refine ⟨⟨rfl, rfl, rfl⟩, ⟨rfl, rfl, rfl⟩, ⟨rfl, rfl, rfl⟩, ⟨rfl, rfl, rfl⟩,
    ⟨rfl, rfl, rfl, rfl, rfl⟩, ?_⟩
  intro hidle
  have hrun : m.app.Running = true := by
    cases h : m.app.Running
    · simp [phase, h] at hidle
    · rfl
  constructor
  · simp only [HandleSessionStateChange_states, List.map_cons, List.map_nil,
      HandleSessionStateChange_READY, HandleSessionStateChange_STOPPING,
      HandleSessionStateChange_EXITING, phase, AppendLog_Running, AppendLog_SessionActive, hrun]
    simp
  · simp only [HandleSessionStateChange_states, List.map_cons, List.map_nil,
      HandleSessionStateChange_READY, HandleSessionStateChange_STOPPING,
      HandleSessionStateChange_EXITING, List.append_assoc, List.singleton_append,
      List.cons_append, List.nil_append]

theorem HandleSessionStateChange_state_machine_witness :
    phase sampleMachine.app = .Idle ∧
    (HandleSessionStateChange_states [.READY, .STOPPING, .READY, .EXITING] sampleMachine).map
        (fun s => phase s.app) = [.Active, .Idle, .Active, .Terminal] ∧
    (HandleSessionStateChange_states [.READY, .STOPPING, .READY, .EXITING] sampleMachine).map
        (fun s => s.calls) =
      [sampleMachine.calls ++ [.xrBeginSession],
       sampleMachine.calls ++ [.xrBeginSession, .xrEndSession],
       sampleMachine.calls ++ [.xrBeginSession, .xrEndSession, .xrBeginSession],
       sampleMachine.calls ++ [.xrBeginSession, .xrEndSession, .xrBeginSession]] :=
  ⟨rfl, (HandleSessionStateChange_state_machine sampleMachine).2.2.2.2.2 rfl⟩

/-! ## The main loop: what one frame and one event do -/

theorem UpdateInput_frame (time : Int) (value : ℚ) (aimLoc : XrSpaceLocation) (m : Machine) :
    (UpdateInput time value aimLoc m).calls
      = m.calls ++ [.xrSyncActions, .xrGetActionStateFloat, .xrLocateSpace time] ∧
    (UpdateInput time value aimLoc m).actionsAttached = m.actionsAttached ∧
    (UpdateInput time value aimLoc m).g_ImGuiInitialized = m.g_ImGuiInitialized ∧
    (UpdateInput time value aimLoc m).app.SessionActive = m.app.SessionActive ∧
    (UpdateInput time value aimLoc m).app.Running = m.app.Running ∧
    (UpdateInput time value aimLoc m).app.UiSwapChain = m.app.UiSwapChain := by
  unfold UpdateInput
  simp only [Machine.emit, List.append_assoc, List.singleton_append, List.cons_append,
    List.nil_append]
  by_cases h1 : aimLoc.locationFlags &&& XR_SPACE_LOCATION_POSITION_VALID_BIT ≠ 0
  · by_cases h2 : (forward aimLoc.pose.orientation).z < -0.001
    · by_cases h3 : ((-2.0 : ℚ) - aimLoc.pose.position.z) / (forward aimLoc.pose.orientation).z > 0 ∧
          ((-2.0 : ℚ) - aimLoc.pose.position.z) / (forward aimLoc.pose.orientation).z < 100.0
      · simp only [if_pos h1, if_pos h2, if_pos h3, and_self, and_true]
      · simp only [if_pos h1, if_pos h2, if_neg h3, and_self, and_true]
    · simp only [if_pos h1, if_neg h2, and_self, and_true]
  · simp only [if_neg h1, and_self, and_true]

@[simp] theorem emit_calls (c : Call) (m : Machine) : (m.emit c).calls = m.calls ++ [c] := rfl

@[simp] theorem emit_app (c : Call) (m : Machine) : (m.emit c).app = m.app := rfl

@[simp] theorem emit_actionsAttached (c : Call) (m : Machine) :
    (m.emit c).actionsAttached = m.actionsAttached := rfl

@[simp] theorem emit_g_ImGuiInitialized (c : Call) (m : Machine) :
    (m.emit c).g_ImGuiInitialized = m.g_ImGuiInitialized := rfl

@[simp] theorem UpdateInput_calls (time : Int) (value : ℚ) (aimLoc : XrSpaceLocation)
    (m : Machine) : (UpdateInput time value aimLoc m).calls
      = m.calls ++ [.xrSyncActions, .xrGetActionStateFloat, .xrLocateSpace time] :=
  (UpdateInput_frame time value aimLoc m).1

@[simp] theorem UpdateInput_actionsAttached (time : Int) (value : ℚ) (aimLoc : XrSpaceLocation)
    (m : Machine) : (UpdateInput time value aimLoc m).actionsAttached = m.actionsAttached :=
  (UpdateInput_frame time value aimLoc m).2.1

@[simp] theorem UpdateInput_SessionActive (time : Int) (value : ℚ) (aimLoc : XrSpaceLocation)
    (m : Machine) : (UpdateInput time value aimLoc m).app.SessionActive = m.app.SessionActive :=
  (UpdateInput_frame time value aimLoc m).2.2.2.1

@[simp] theorem UpdateInput_Running (time : Int) (value : ℚ) (aimLoc : XrSpaceLocation)
    (m : Machine) : (UpdateInput time value aimLoc m).app.Running = m.app.Running :=
  (UpdateInput_frame time value aimLoc m).2.2.2.2.1

@[simp] theorem UpdateInput_UiSwapChain (time : Int) (value : ℚ) (aimLoc : XrSpaceLocation)
    (m : Machine) : (UpdateInput time value aimLoc m).app.UiSwapChain = m.app.UiSwapChain :=
  (UpdateInput_frame time value aimLoc m).2.2.2.2.2

@[simp] theorem RenderImGuiToTexture_calls (ui : ImGuiButtons) (m : Machine) :
    (RenderImGuiToTexture ui m).calls = m.calls := (RenderImGuiToTexture_frame ui m).1

@[simp] theorem RenderImGuiToTexture_actionsAttached (ui : ImGuiButtons) (m : Machine) :
    (RenderImGuiToTexture ui m).actionsAttached = m.actionsAttached :=
  (RenderImGuiToTexture_frame ui m).2.1

@[simp] theorem RenderImGuiToTexture_SessionActive (ui : ImGuiButtons) (m : Machine) :
    (RenderImGuiToTexture ui m).app.SessionActive = m.app.SessionActive :=
  (RenderImGuiToTexture_frame ui m).2.2.2.2.2.2.1

@[simp] theorem RenderImGuiToTexture_Running (ui : ImGuiButtons) (m : Machine) :
    (RenderImGuiToTexture ui m).app.Running = m.app.Running :=
  (RenderImGuiToTexture_frame ui m).2.2.2.2.2.2.2.1

@[simp] theorem RenderImGuiToTexture_UiSwapChain (ui : ImGuiButtons) (m : Machine) :
    (RenderImGuiToTexture ui m).app.UiSwapChain = m.app.UiSwapChain :=
  (RenderImGuiToTexture_frame ui m).2.2.2.1

theorem android_main_frame_spec (f : FrameInput) (m : Machine) :
    (android_main_frame f m).calls = m.calls ++ frameCalls f m.app ∧
    (android_main_frame f m).actionsAttached = m.actionsAttached ∧
    (android_main_frame f m).app.SessionActive = m.app.SessionActive ∧
    (android_main_frame f m).app.Running = m.app.Running := by
  refine ⟨?_, ?_, ?_, ?_⟩
  · simp [android_main_frame, frameCalls, quadLayer]
  · simp [android_main_frame]
  · simp [android_main_frame]
  · simp [android_main_frame]

theorem processAndroidEvents_SessionActive (ps : List LooperPoll) (app : ovrApp) :
    (processAndroidEvents ps app).SessionActive = app.SessionActive := by
  induction ps generalizing app with
  | nil => rfl
  | cons p ps ih =>
    unfold processAndroidEvents
    have hc : ∀ c : AppCmd, (HandleAppCmd c app).SessionActive = app.SessionActive := by
      intro c; cases c <;> rfl
    cases hcmd : p.cmd <;> cases hd : p.destroyRequested <;>
      simp [ih, hc]

theorem append_eq_split {α : Type} {l ds pre post : List α} {c : α}
    (h : l ++ ds = pre ++ c :: post) :
    (∃ post', l = pre ++ c :: post' ∧ post = post' ++ ds) ∨
    (∃ a, pre = l ++ a ∧ ds = a ++ c :: post) := by
  rcases List.append_eq_append_iff.mp h with ⟨a, h1, h2⟩ | ⟨c', h1, h2⟩
  · exact Or.inr ⟨a, h1, h2⟩
  · cases c' with
    | nil =>
      refine Or.inr ⟨[], ?_, ?_⟩
      · simpa using h1.symm
      · simpa using h2.symm
    | cons x c'' =>
      simp only [List.cons_append, List.cons.injEq] at h2
      obtain ⟨hx, hp⟩ := h2
      exact Or.inl ⟨c'', by rw [h1, hx], hp⟩

theorem LoopInv.attach_mem {m : Machine} (h : LoopInv m) (ha : m.actionsAttached = true) :
    Call.xrAttachSessionActionSets ∈ m.calls := by
  have hc := h.attach_count
  rw [ha] at hc
  simp only [if_true] at hc
  exact List.count_pos_iff.mp (by omega)

/-- A step that attaches nothing keeps the invariant, provided it begins a
session or syncs actions only when the action set is attached, and leaves the
session active only when it is attached. -/
theorem LoopInv.step {m m2 : Machine} (h : LoopInv m) (ds : List Call)
    (hcalls : m2.calls = m.calls ++ ds) (hatt : m2.actionsAttached = m.actionsAttached)
    (hno : Call.xrAttachSessionActionSets ∉ ds)
    (hbegin : Call.xrBeginSession ∈ ds → m.actionsAttached = true)
    (hsync : Call.xrSyncActions ∈ ds → m.actionsAttached = true)
    (hactive : m2.app.SessionActive = true → m.actionsAttached = true) : LoopInv m2 := by
  refine ⟨?_, ?_, ?_, ?_, ?_⟩
  · intro ha; rw [hatt]; exact hactive ha
  · rw [hcalls, hatt, List.count_append, List.count_eq_zero_of_not_mem hno, Nat.add_zero]
    exact h.attach_count
  · rw [hcalls, hatt, List.mem_append]
    constructor
    · intro ha; exact Or.inl (h.attached_iff_begin.mp ha)
    · rintro (hb | hb)
      · exact h.attached_iff_begin.mpr hb
      · exact hbegin hb
  · intro pre post heq
    rw [hcalls] at heq
    rcases append_eq_split heq with ⟨post', h1, _⟩ | ⟨a, h1, h2⟩
    · exact h.sync_after pre post' h1
    · rw [h1]
      have hm : Call.xrSyncActions ∈ ds := by rw [h2]; simp
      exact List.mem_append_left _ (h.attach_mem (hsync hm))
  · intro pre post heq
    rw [hcalls] at heq
    rcases append_eq_split heq with ⟨post', h1, _⟩ | ⟨a, _, h2⟩
    · exact h.attach_at_first_begin pre post' h1
    · exact absurd (by rw [h2]; simp) hno

theorem LoopInv.quiet {m m2 : Machine} (h : LoopInv m) (hcalls : m2.calls = m.calls)
    (hatt : m2.actionsAttached = m.actionsAttached)
    (hactive : m2.app.SessionActive = true → m.app.SessionActive = true) : LoopInv m2 :=
  h.step [] (by rw [hcalls, List.append_nil]) hatt (by simp) (by simp) (by simp)
    (fun ha => h.active_attached (hactive ha))

theorem processXrEvent_not_ready (state : XrSessionState) (m : Machine)
    (hne : state ≠ .READY) :
    processXrEvent (.SESSION_STATE_CHANGED state) m = HandleSessionStateChange state m := by
  simp [processXrEvent, hne]

theorem processXrEvent_ready_attached (m : Machine) (ha : m.actionsAttached = true) :
    processXrEvent (.SESSION_STATE_CHANGED .READY) m = HandleSessionStateChange .READY m := by
  simp [processXrEvent, HandleSessionStateChange_READY, ha]

theorem processXrEvent_ready_first (m : Machine) (ha : m.actionsAttached = false) :
    processXrEvent (.SESSION_STATE_CHANGED .READY) m =
      { app := AppendLog "VR Session started!".toList { m.app with SessionActive := true }
        g_ImGuiInitialized := m.g_ImGuiInitialized
        actionsAttached := true
        calls := m.calls ++ [.xrBeginSession, .xrAttachSessionActionSets,
          .xrCreateActionSpace false, .xrCreateActionSpace true] } := by
  simp [processXrEvent, HandleSessionStateChange_READY, ha, AttachActionSet, Machine.emit]

theorem LoopInv.ready_first {m : Machine} (h : LoopInv m) (ha : m.actionsAttached = false) :
    LoopInv (processXrEvent (.SESSION_STATE_CHANGED .READY) m) := by
  rw [processXrEvent_ready_first m ha]
  have hnb : Call.xrBeginSession ∉ m.calls := by
    intro hb
    have := h.attached_iff_begin.mpr hb
    rw [ha] at this
    exact Bool.noConfusion this
  have hcount : m.calls.count Call.xrAttachSessionActionSets = 0 := by
    have := h.attach_count
    rw [ha] at this
    simpa using this
  refine ⟨fun _ => rfl, ?_, ?_, ?_, ?_⟩
  · show List.count Call.xrAttachSessionActionSets (m.calls ++ _) = 1
    rw [List.count_append, hcount]
    decide
  · show (true = true) ↔ Call.xrBeginSession ∈ m.calls ++ _
    simp
  · intro pre post heq
    rcases append_eq_split heq with ⟨post', h1, _⟩ | ⟨a, _, h2⟩
    · exact h.sync_after pre post' h1
    · have hm : Call.xrSyncActions ∈ [Call.xrBeginSession, Call.xrAttachSessionActionSets,
          Call.xrCreateActionSpace false, Call.xrCreateActionSpace true] := by
        rw [h2]; simp
      simp at hm
  · intro pre post heq
    rcases append_eq_split heq with ⟨post', h1, _⟩ | ⟨a, h1, h2⟩
    · have hm : Call.xrAttachSessionActionSets ∈ m.calls := by rw [h1]; simp
      exact absurd (List.count_pos_iff.mpr hm) (by omega)
    · refine ⟨m.calls, ?_, hnb⟩
      rw [h1]
      congr 1
      match a, h2 with
      | [], h2 => simp at h2
      | [x], h2 =>
        simp only [List.cons_append, List.nil_append, List.cons.injEq] at h2
        rw [h2.1]
      | x :: y :: a', h2 =>
        simp only [List.cons_append, List.cons.injEq] at h2
        have hm : Call.xrAttachSessionActionSets ∈
            [Call.xrCreateActionSpace false, Call.xrCreateActionSpace true] := by
          rw [h2.2.2]; simp
        simp at hm

theorem processXrEvent_spec (ev : XrEvent) (m : Machine) (h : LoopInv m) :
    LoopInv (processXrEvent ev m) ∧
    ∃ ds, (processXrEvent ev m).calls = m.calls ++ ds ∧ ∀ c ∈ ds, isSessionCall c = true := by
  cases ev with
  | OTHER => exact ⟨h, [], by simp [processXrEvent], by simp⟩
  | INSTANCE_LOSS_PENDING =>
    exact ⟨h.quiet rfl rfl (fun ha => ha), [], by simp [processXrEvent], by simp⟩
  | SESSION_STATE_CHANGED state =>
    by_cases hr : state = .READY
    · subst hr
      cases ha : m.actionsAttached
      · refine ⟨h.ready_first ha, [.xrBeginSession, .xrAttachSessionActionSets,
          .xrCreateActionSpace false, .xrCreateActionSpace true], ?_, ?_⟩
        · rw [processXrEvent_ready_first m ha]
        · simp [isSessionCall]
      · rw [processXrEvent_ready_attached m ha, HandleSessionStateChange_READY]
        refine ⟨h.step [.xrBeginSession] rfl rfl (by simp) (fun _ => ha) (by simp)
          (fun _ => ha), [.xrBeginSession], rfl, by simp [isSessionCall]⟩
    · rw [processXrEvent_not_ready state m hr]
      cases state with
      | READY => exact absurd rfl hr
      | STOPPING =>
        rw [HandleSessionStateChange_STOPPING]
        refine ⟨h.step [.xrEndSession] rfl rfl (by simp) (by simp) (by simp) ?_,
          [.xrEndSession], rfl, by simp [isSessionCall]⟩
        intro hact
        simp at hact
      | EXITING =>
        exact ⟨h.quiet rfl rfl (fun ha => ha), [], by simp [HandleSessionStateChange], by simp⟩
      | LOSS_PENDING =>
        exact ⟨h.quiet rfl rfl (fun ha => ha), [], by simp [HandleSessionStateChange], by simp⟩
      | UNKNOWN => exact ⟨h, [], by simp [HandleSessionStateChange], by simp⟩
      | IDLE => exact ⟨h, [], by simp [HandleSessionStateChange], by simp⟩
      | SYNCHRONIZED => exact ⟨h, [], by simp [HandleSessionStateChange], by simp⟩
      | VISIBLE => exact ⟨h, [], by simp [HandleSessionStateChange], by simp⟩
      | FOCUSED => exact ⟨h, [], by simp [HandleSessionStateChange], by simp⟩

theorem processXrEvents_spec (evs : List XrEvent) (m : Machine) (h : LoopInv m) :
    LoopInv (processXrEvents evs m) ∧
    ∃ ds, (processXrEvents evs m).calls = m.calls ++ ds ∧ ∀ c ∈ ds, isSessionCall c = true := by
  induction evs generalizing m with
  | nil => exact ⟨h, [], by simp [processXrEvents], by simp⟩
  | cons ev evs ih =>
    obtain ⟨h1, d1, hc1, hs1⟩ := processXrEvent_spec ev m h
    obtain ⟨h2, d2, hc2, hs2⟩ := ih (processXrEvent ev m) h1
    have hunf : processXrEvents (ev :: evs) m = processXrEvents evs (processXrEvent ev m) := rfl
    rw [hunf]
    refine ⟨h2, d1 ++ d2, ?_, ?_⟩
    · rw [hc2, hc1, List.append_assoc]
    · intro c hc
      rcases List.mem_append.mp hc with hc | hc
      · exact hs1 c hc
      · exact hs2 c hc

theorem android_main_events_spec (i : IterationInput) (m : Machine) (h : LoopInv m) :
    LoopInv (android_main_events i m) ∧
    ∃ ds, (android_main_events i m).calls = m.calls ++ ds ∧
      ∀ c ∈ ds, isSessionCall c = true := by
  unfold android_main_events
  have h0 : LoopInv { m with app := processAndroidEvents i.looper m.app } :=
    h.quiet rfl rfl (fun ha => by
      rw [processAndroidEvents_SessionActive] at ha
      exact ha)
  exact processXrEvents_spec i.xrEvents _ h0

theorem android_main_iteration_idle (i : IterationInput) (m : Machine)
    (h : (android_main_events i m).app.SessionActive = false) :
    android_main_iteration i m = android_main_events i m := by
  simp [android_main_iteration, h]

theorem android_main_iteration_active (i : IterationInput) (m : Machine)
    (h : (android_main_events i m).app.SessionActive = true) :
    android_main_iteration i m = android_main_frame i.frame (android_main_events i m) := by
  simp [android_main_iteration, h]

theorem android_main_iteration_spec (i : IterationInput) (m : Machine) (h : LoopInv m) :
    LoopInv (android_main_iteration i m) ∧
    ∃ ds, (∀ c ∈ ds, isSessionCall c = true) ∧
      (android_main_iteration i m).calls = m.calls ++ ds ++
        (if (android_main_events i m).app.SessionActive then
          frameCalls i.frame (android_main_events i m).app else []) := by
  obtain ⟨h1, ds, hc, hs⟩ := android_main_events_spec i m h
  obtain ⟨f1, f2, f3, _⟩ := android_main_frame_spec i.frame (android_main_events i m)
  cases hact : (android_main_events i m).app.SessionActive
  · rw [android_main_iteration_idle i m hact]
    simp only [Bool.false_eq_true, if_false, List.append_nil]
    exact ⟨h1, ds, hs, hc⟩
  · rw [android_main_iteration_active i m hact]
    simp only [if_true]
    have hatt := h1.active_attached hact
    refine ⟨h1.step (frameCalls i.frame (android_main_events i m).app) f1 f2
      (by simp [frameCalls]) (by simp [frameCalls]) (fun _ => hatt) (fun _ => hatt),
      ds, hs, ?_⟩
    rw [f1, hc]

theorem startMachine_inv (sc : ovrSwapChain) (framebuffer : Nat) :
    LoopInv (startMachine sc framebuffer) := by
  refine ⟨?_, rfl, ?_, ?_, ?_⟩
  · intro ha
    simp [startMachine, zeroApp] at ha
  · simp [startMachine]
  · intro pre post heq
    simp [startMachine] at heq
  · intro pre post heq
    simp [startMachine] at heq

theorem android_main_loop_inv (is : List IterationInput) (m : Machine) (h : LoopInv m) :
    LoopInv (android_main_loop is m) := by
  induction is generalizing m with
  | nil => exact h
  | cons i is ih =>
    unfold android_main_loop
    by_cases hr : m.app.Running = true
    · rw [if_pos hr]
      exact ih _ (android_main_iteration_spec i m h).1
    · rw [if_neg hr]
      exact h

/-- Induction along a run of the main loop, for a property of the call log that
survives the calls of event handling and the calls of a frame. -/
theorem android_main_loop_calls_induction (P : List Call → Prop)
    (hev : ∀ l ds, P l → (∀ c ∈ ds, isSessionCall c = true) → P (l ++ ds))
    (hframe : ∀ l f app, P l → P (l ++ frameCalls f app))
    (is : List IterationInput) (m : Machine) (h : LoopInv m) (hP : P m.calls) :
    P (android_main_loop is m).calls := by
  induction is generalizing m with
  | nil => exact hP
  | cons i is ih =>
    unfold android_main_loop
    by_cases hr : m.app.Running = true
    · rw [if_pos hr]
      obtain ⟨h1, ds, hs, hc⟩ := android_main_iteration_spec i m h
      refine ih _ h1 ?_
      rw [hc]
      have h2 := hev m.calls ds hP hs
      cases (android_main_events i m).app.SessionActive
      · simpa using h2
      · simpa using hframe _ i.frame (android_main_events i m).app h2
    · rw [if_neg hr]
      exact hP

theorem frameMarks_append (l1 l2 : List Call) :
    frameMarks (l1 ++ l2) = frameMarks l1 ++ frameMarks l2 :=
  List.filterMap_append l1 l2 frameMark

theorem frameMarks_session (ds : List Call) (h : ∀ c ∈ ds, isSessionCall c = true) :
    frameMarks ds = [] := by
  apply List.filterMap_eq_nil_iff.mpr
  intro c hc
  have := h c hc
  cases c <;> simp [isSessionCall] at this <;> rfl

theorem frameMarks_frameCalls (f : FrameInput) (app : ovrApp) :
    frameMarks (frameCalls f app) = [.beginFrame, .endFrame] := rfl

theorem filter_session (ds : List Call) (h : ∀ c ∈ ds, isSessionCall c = true) :
    ds.filter isAcquireOrRelease = [] := by
  apply List.filter_eq_nil_iff.mpr
  intro c hc
  have := h c hc
  cases c <;> simp [isSessionCall] at this <;> simp [isAcquireOrRelease]

theorem count_beginFrame_session (ds : List Call) (h : ∀ c ∈ ds, isSessionCall c = true) :
    ds.count Call.xrBeginFrame = 0 := by
  apply List.count_eq_zero_of_not_mem
  intro hc
  have := h _ hc
  simp [isSessionCall] at this

theorem flatten_replicate_succ_end {α : Type} (n : Nat) (l : List α) :
    (List.replicate (n + 1) l).flatten = (List.replicate n l).flatten ++ l := by
  rw [List.replicate_succ', List.flatten_concat]

/-- In a list that alternates `a, r, a, r, ...`, every initial segment holds as
many `r` as `a`, or one `a` more. -/
theorem alternating_counts (a r : Call) (har : a ≠ r) (n : Nat) :
    ∀ p q : List Call, p ++ q = (List.replicate n [a, r]).flatten →
      p.count r ≤ p.count a ∧ p.count a ≤ p.count r + 1 := by
  induction n with
  | zero =>
    intro p q h
    simp only [List.replicate_zero, List.flatten_nil, List.append_eq_nil] at h
    rw [h.1]
    simp
  | succ n ih =>
    intro p q h
    rw [List.replicate_succ, List.flatten_cons] at h
    have hra : r ≠ a := fun e => har e.symm
    match p, h with
    | [], _ => simp
    | [x], h =>
      simp only [List.cons_append, List.nil_append, List.cons.injEq] at h
      rw [h.1]
      simp [hra]
    | x :: y :: p', h =>
      simp only [List.cons_append, List.nil_append, List.cons.injEq] at h
      obtain ⟨hx, hy, hrest⟩ := h
      have := ih p' q hrest
      rw [hx, hy]
      simp only [List.count_cons, beq_self_eq_true, if_true, beq_iff_eq, har, hra, if_false]
      omega

theorem processXrEvent_keeps_inactive (ev : XrEvent) (m : Machine)
    (hne : ev ≠ .SESSION_STATE_CHANGED .READY) (h : m.app.SessionActive = false) :
    (processXrEvent ev m).app.SessionActive = false := by
  cases ev with
  | OTHER => exact h
  | INSTANCE_LOSS_PENDING => exact h
  | SESSION_STATE_CHANGED state =>
    have hr : state ≠ .READY := fun e => hne (by rw [e])
    rw [processXrEvent_not_ready state m hr]
    cases state <;> first | exact absurd rfl hr | exact h | rfl

theorem processXrEvents_keeps_inactive (evs : List XrEvent) (m : Machine)
    (hno : XrEvent.SESSION_STATE_CHANGED .READY ∉ evs) (h : m.app.SessionActive = false) :
    (processXrEvents evs m).app.SessionActive = false := by
  induction evs generalizing m with
  | nil => exact h
  | cons ev evs ih =>
    have hunf : processXrEvents (ev :: evs) m = processXrEvents evs (processXrEvent ev m) := rfl
    rw [hunf]
    refine ih _ (fun hm => hno (List.mem_cons_of_mem _ hm)) ?_
    exact processXrEvent_keeps_inactive ev m (fun e => hno (by rw [e]; simp)) h

theorem android_main_events_stopping (i : IterationInput) (m : Machine)
    (pre post : List XrEvent)
    (hev : i.xrEvents = pre ++ XrEvent.SESSION_STATE_CHANGED .STOPPING :: post)
    (hno : XrEvent.SESSION_STATE_CHANGED .READY ∉ post) :
    (android_main_events i m).app.SessionActive = false := by
  unfold android_main_events processXrEvents
  rw [hev, List.foldl_append, List.foldl_cons]
  exact processXrEvents_keeps_inactive post _ hno rfl

/-! ## The main loop: attachment, frames, swapchain images -/

/-- Claim C8. In every run of the main loop the action set is attached at most
once; it is attached exactly when a Ready event has been handled (a begin-session
call is in the log), as the call right after the first begin-session call and so
never before it; every `xrSyncActions` comes after the attachment; and whenever
the session is active after the event loops of an iteration, where a frame is
issued, `actionsAttached` is true and the attachment is in the log. -/
theorem android_main_attach_once (sc : ovrSwapChain) (framebuffer : Nat)
    (is : List IterationInput) (i : IterationInput) :
    (android_main_run sc framebuffer is).calls.count Call.xrAttachSessionActionSets ≤ 1 ∧
    (Call.xrAttachSessionActionSets ∈ (android_main_run sc framebuffer is).calls ↔
      Call.xrBeginSession ∈ (android_main_run sc framebuffer is).calls) ∧
    (∀ pre post, (android_main_run sc framebuffer is).calls
        = pre ++ Call.xrAttachSessionActionSets :: post →
      ∃ pre', pre = pre' ++ [Call.xrBeginSession] ∧ Call.xrBeginSession ∉ pre') ∧
    (∀ pre post, (android_main_run sc framebuffer is).calls = pre ++ Call.xrSyncActions :: post →
      Call.xrAttachSessionActionSets ∈ pre) ∧
    ((android_main_events i (android_main_run sc framebuffer is)).app.SessionActive = true →
      (android_main_events i (android_main_run sc framebuffer is)).actionsAttached = true ∧
      Call.xrAttachSessionActionSets ∈
        (android_main_events i (android_main_run sc framebuffer is)).calls) := by
  have h : LoopInv (android_main_run sc framebuffer is) :=
    android_main_loop_inv is _ (startMachine_inv sc framebuffer)
  have he := (android_main_events_spec i _ h).1
  refine ⟨?_, ?_, h.attach_at_first_begin, h.sync_after, ?_⟩
  · rw [h.attach_count]
    split <;> omega
  · constructor
    · intro hm
      have hc := h.attach_count
      have hpos := List.count_pos_iff.mpr hm
      cases ha : (android_main_run sc framebuffer is).actionsAttached
      · rw [ha] at hc
        simp only [Bool.false_eq_true, if_false] at hc
        omega
      · exact h.attached_iff_begin.mp ha
    · intro hb
      exact h.attach_mem (h.attached_iff_begin.mpr hb)
  · intro hact
    exact ⟨he.active_attached hact, he.attach_mem (he.active_attached hact)⟩

/-- Claim C9. In every run of the main loop, an iteration issues no frame call
when the session is not active after its event loops (in particular when a
Stopping event with no later Ready was drained), and otherwise exactly one
begin-frame followed by one end-frame; over the whole run the begin-frame and
end-frame calls alternate one to one, starting with begin-frame. -/
theorem android_main_frames_alternate (sc : ovrSwapChain) (framebuffer : Nat)
    (is : List IterationInput) (i : IterationInput) :
    (∃ issued, (android_main_iteration i (android_main_run sc framebuffer is)).calls
        = (android_main_run sc framebuffer is).calls ++ issued ∧
      frameMarks issued =
        if (android_main_events i (android_main_run sc framebuffer is)).app.SessionActive
        then [.beginFrame, .endFrame] else []) ∧
    (∀ pre post, i.xrEvents = pre ++ XrEvent.SESSION_STATE_CHANGED .STOPPING :: post →
      XrEvent.SESSION_STATE_CHANGED .READY ∉ post →
      ∃ issued, (android_main_iteration i (android_main_run sc framebuffer is)).calls
          = (android_main_run sc framebuffer is).calls ++ issued ∧
        frameMarks issued = []) ∧
    (∃ n, frameMarks (android_main_run sc framebuffer is).calls
      = (List.replicate n [FrameMark.beginFrame, FrameMark.endFrame]).flatten) := by
  have h : LoopInv (android_main_run sc framebuffer is) :=
    android_main_loop_inv is _ (startMachine_inv sc framebuffer)
  obtain ⟨_, ds, hs, hc⟩ := android_main_iteration_spec i _ h
  have key : ∃ issued, (android_main_iteration i (android_main_run sc framebuffer is)).calls
        = (android_main_run sc framebuffer is).calls ++ issued ∧
      frameMarks issued =
        if (android_main_events i (android_main_run sc framebuffer is)).app.SessionActive
        then [.beginFrame, .endFrame] else [] := by
    refine ⟨ds ++ (if (android_main_events i (android_main_run sc framebuffer is)).app.SessionActive
        then frameCalls i.frame (android_main_events i (android_main_run sc framebuffer is)).app
        else []), ?_, ?_⟩
    · rw [hc, List.append_assoc]
    · rw [frameMarks_append, frameMarks_session ds hs, List.nil_append]
      cases (android_main_events i (android_main_run sc framebuffer is)).app.SessionActive
      · rfl
      · exact frameMarks_frameCalls _ _
  refine ⟨key, ?_, ?_⟩
  · intro pre post hev hno
    have hina := android_main_events_stopping i (android_main_run sc framebuffer is) pre post
      hev hno
    obtain ⟨issued, h1, h2⟩ := key
    rw [hina] at h2
    exact ⟨issued, h1, h2⟩
  · refine android_main_loop_calls_induction
      (fun l => ∃ n, frameMarks l
        = (List.replicate n [FrameMark.beginFrame, FrameMark.endFrame]).flatten)
      ?_ ?_ is _ (startMachine_inv sc framebuffer) ⟨0, rfl⟩
    · rintro l ds ⟨n, hn⟩ hds
      exact ⟨n, by rw [frameMarks_append, frameMarks_session ds hds, List.append_nil, hn]⟩
    · rintro l f app ⟨n, hn⟩
      exact ⟨n + 1, by
        rw [frameMarks_append, frameMarks_frameCalls, hn, flatten_replicate_succ_end]⟩

/-- Claim C10. Within a frame the calls are, in order, acquire, wait-image,
render, release, and then end-frame; so in every run, with `N` the number of
frames begun, the acquire and release calls are `N` pairs acquire, release, and
at every point of the run the acquires exceed the releases by at most one (no
image is acquired while another is acquired and not released). -/
theorem android_main_acquire_release (sc : ovrSwapChain) (framebuffer : Nat)
    (is : List IterationInput) (f : FrameInput) (m : Machine) :
    (android_main_frame f m).calls = m.calls ++
      [.xrWaitFrame, .xrBeginFrame, .xrSyncActions, .xrGetActionStateFloat,
       .xrLocateSpace f.predictedDisplayTime, .xrAcquireSwapchainImage, .xrWaitSwapchainImage,
       .RenderImGuiToTexture f.imageIndex, .xrReleaseSwapchainImage,
       .xrEndFrame f.predictedDisplayTime (if f.shouldRender then 1 else 0) (quadLayer m.app)] ∧
    (android_main_run sc framebuffer is).calls.filter isAcquireOrRelease
      = (List.replicate ((android_main_run sc framebuffer is).calls.count Call.xrBeginFrame)
          [Call.xrAcquireSwapchainImage, Call.xrReleaseSwapchainImage]).flatten ∧
    (∀ pre post, (android_main_run sc framebuffer is).calls = pre ++ post →
      pre.count Call.xrReleaseSwapchainImage ≤ pre.count Call.xrAcquireSwapchainImage ∧
      pre.count Call.xrAcquireSwapchainImage ≤ pre.count Call.xrReleaseSwapchainImage + 1) := by
  have hrun : (android_main_run sc framebuffer is).calls.filter isAcquireOrRelease
      = (List.replicate ((android_main_run sc framebuffer is).calls.count Call.xrBeginFrame)
          [Call.xrAcquireSwapchainImage, Call.xrReleaseSwapchainImage]).flatten := by
    refine android_main_loop_calls_induction
      (fun l => l.filter isAcquireOrRelease
        = (List.replicate (l.count Call.xrBeginFrame)
            [Call.xrAcquireSwapchainImage, Call.xrReleaseSwapchainImage]).flatten)
      ?_ ?_ is _ (startMachine_inv sc framebuffer) rfl
    · intro l ds hl hds
      show List.filter isAcquireOrRelease (l ++ ds) = _
      rw [List.filter_append, filter_session ds hds, List.append_nil, List.count_append,
        count_beginFrame_session ds hds, Nat.add_zero]
      exact hl
    · intro l f app hl
      show List.filter isAcquireOrRelease (l ++ frameCalls f app) = _
      have h1 : (frameCalls f app).filter isAcquireOrRelease
          = [Call.xrAcquireSwapchainImage, Call.xrReleaseSwapchainImage] := rfl
      have h2 : (frameCalls f app).count Call.xrBeginFrame = 1 := by
        simp [frameCalls]
      rw [List.filter_append, h1, List.count_append, h2, flatten_replicate_succ_end]
      exact congrArg (· ++ [Call.xrAcquireSwapchainImage, Call.xrReleaseSwapchainImage]) hl
  refine ⟨(android_main_frame_spec f m).1, hrun, ?_⟩
  intro pre post hsplit
  have hf : pre.filter isAcquireOrRelease ++ post.filter isAcquireOrRelease
      = (List.replicate ((android_main_run sc framebuffer is).calls.count Call.xrBeginFrame)
          [Call.xrAcquireSwapchainImage, Call.xrReleaseSwapchainImage]).flatten := by
    rw [← List.filter_append, ← hsplit, hrun]
  have hcount := alternating_counts Call.xrAcquireSwapchainImage Call.xrReleaseSwapchainImage
    (by decide) _ _ _ hf
  rw [List.count_filter (by rfl), List.count_filter (by rfl)] at hcount
  exact hcount

/-! ## The layer submitted at end-frame -/

theorem processAndroidEvents_UiSwapChain (ps : List LooperPoll) (app : ovrApp) :
    (processAndroidEvents ps app).UiSwapChain = app.UiSwapChain := by
  induction ps generalizing app with
  | nil => rfl
  | cons p ps ih =>
    unfold processAndroidEvents
    have hc : ∀ c : AppCmd, (HandleAppCmd c app).UiSwapChain = app.UiSwapChain := by
      intro c; cases c <;> rfl
    cases hcmd : p.cmd <;> cases hd : p.destroyRequested <;>
      simp [ih, hc]

theorem HandleSessionStateChange_UiSwapChain (state : XrSessionState) (m : Machine) :
    (HandleSessionStateChange state m).app.UiSwapChain = m.app.UiSwapChain := by
  cases state <;> rfl

theorem processXrEvent_UiSwapChain (ev : XrEvent) (m : Machine) :
    (processXrEvent ev m).app.UiSwapChain = m.app.UiSwapChain := by
  cases ev with
  | OTHER => rfl
  | INSTANCE_LOSS_PENDING => rfl
  | SESSION_STATE_CHANGED state =>
    have h := HandleSessionStateChange_UiSwapChain state m
    unfold processXrEvent
    simp only []
    split
    · exact h
    · exact h

theorem processXrEvents_UiSwapChain (evs : List XrEvent) (m : Machine) :
    (processXrEvents evs m).app.UiSwapChain = m.app.UiSwapChain := by
  induction evs generalizing m with
  | nil => rfl
  | cons ev evs ih =>
    have hunf : processXrEvents (ev :: evs) m = processXrEvents evs (processXrEvent ev m) := rfl
    rw [hunf, ih, processXrEvent_UiSwapChain]

theorem android_main_events_UiSwapChain (i : IterationInput) (m : Machine) :
    (android_main_events i m).app.UiSwapChain = m.app.UiSwapChain := by
  unfold android_main_events
  rw [processXrEvents_UiSwapChain]
  exact processAndroidEvents_UiSwapChain _ _

theorem android_main_frame_UiSwapChain (f : FrameInput) (m : Machine) :
    (android_main_frame f m).app.UiSwapChain = m.app.UiSwapChain := by
  simp [android_main_frame]

theorem android_main_iteration_UiSwapChain (i : IterationInput) (m : Machine) :
    (android_main_iteration i m).app.UiSwapChain = m.app.UiSwapChain := by
  cases hact : (android_main_events i m).app.SessionActive
  · rw [android_main_iteration_idle i m hact, android_main_events_UiSwapChain]
  · rw [android_main_iteration_active i m hact, android_main_frame_UiSwapChain,
      android_main_events_UiSwapChain]

theorem android_main_loop_UiSwapChain (is : List IterationInput) (m : Machine) :
    (android_main_loop is m).app.UiSwapChain = m.app.UiSwapChain := by
  induction is generalizing m with
  | nil => rfl
  | cons i is ih =>
    unfold android_main_loop
    split
    · rw [ih, android_main_iteration_UiSwapChain]
    · rfl

theorem android_main_run_UiSwapChain (sc : ovrSwapChain) (framebuffer : Nat)
    (is : List IterationInput) :
    (android_main_run sc framebuffer is).app.UiSwapChain = sc := by
  unfold android_main_run
  rw [android_main_loop_UiSwapChain]
  simp [startMachine]

/-- Claim C11. In every rendered frame the last call is the one end-frame call;
it passes layer count 1 if the wait-frame hint `shouldRender` was true and 0
otherwise, with the quad layer at position `(0,0,-2)`, identity orientation,
size 1.6 by 1.2, on the UI swapchain, and its display time is the predicted
display time of the same frame's wait-frame; in a run this holds for the frame
of every iteration that renders, the swapchain being the one created at start. -/
theorem android_main_end_frame_layer (sc : ovrSwapChain) (framebuffer : Nat)
    (is : List IterationInput) (i : IterationInput) (f : FrameInput) (m : Machine) :
    (android_main_frame f m).calls = m.calls ++
      [.xrWaitFrame, .xrBeginFrame, .xrSyncActions, .xrGetActionStateFloat,
       .xrLocateSpace f.predictedDisplayTime, .xrAcquireSwapchainImage, .xrWaitSwapchainImage,
       .RenderImGuiToTexture f.imageIndex, .xrReleaseSwapchainImage] ++
      [.xrEndFrame f.predictedDisplayTime (if f.shouldRender then 1 else 0)
        ⟨m.app.UiSwapChain.Handle, (0, 0), (1024, 768), 0, ⟨⟨0, 0, 0, 1⟩, ⟨0, 0, -2⟩⟩,
          1.6, 1.2⟩] ∧
    ((android_main_events i (android_main_run sc framebuffer is)).app.SessionActive = true →
      (android_main_iteration i (android_main_run sc framebuffer is)).calls =
        (android_main_events i (android_main_run sc framebuffer is)).calls ++
        [.xrWaitFrame, .xrBeginFrame, .xrSyncActions, .xrGetActionStateFloat,
         .xrLocateSpace i.frame.predictedDisplayTime, .xrAcquireSwapchainImage,
         .xrWaitSwapchainImage, .RenderImGuiToTexture i.frame.imageIndex,
         .xrReleaseSwapchainImage] ++
        [.xrEndFrame i.frame.predictedDisplayTime (if i.frame.shouldRender then 1 else 0)
          ⟨sc.Handle, (0, 0), (1024, 768), 0, ⟨⟨0, 0, 0, 1⟩, ⟨0, 0, -2⟩⟩, 1.6, 1.2⟩]) := by
  have hq : ∀ app : ovrApp, quadLayer app
      = ⟨app.UiSwapChain.Handle, (0, 0), (1024, 768), 0, ⟨⟨0, 0, 0, 1⟩, ⟨0, 0, -2⟩⟩,
          1.6, 1.2⟩ := by
    intro app
    simp only [quadLayer, UI_WIDTH, UI_HEIGHT]
    norm_num
  have hframe : ∀ (g : FrameInput) (s : Machine), (android_main_frame g s).calls = s.calls ++
      [.xrWaitFrame, .xrBeginFrame, .xrSyncActions, .xrGetActionStateFloat,
       .xrLocateSpace g.predictedDisplayTime, .xrAcquireSwapchainImage, .xrWaitSwapchainImage,
       .RenderImGuiToTexture g.imageIndex, .xrReleaseSwapchainImage] ++
      [.xrEndFrame g.predictedDisplayTime (if g.shouldRender then 1 else 0)
        ⟨s.app.UiSwapChain.Handle, (0, 0), (1024, 768), 0, ⟨⟨0, 0, 0, 1⟩, ⟨0, 0, -2⟩⟩,
          1.6, 1.2⟩] := by
    intro g s
    rw [(android_main_frame_spec g s).1, ← hq s.app]
    simp [frameCalls]
  refine ⟨hframe f m, ?_⟩
  intro hact
  rw [android_main_iteration_active i _ hact, hframe, android_main_events_UiSwapChain,
    android_main_run_UiSwapChain]

/-! ## After a terminal event -/

theorem android_main_loop_stopped (is : List IterationInput) (m : Machine)
    (h : m.app.Running = false) : android_main_loop is m = m := by
  cases is with
  | nil => rfl
  | cons i is =>
    unfold android_main_loop
    rw [if_neg (by rw [h]; exact Bool.false_ne_true)]

theorem android_main_loop_running (i : IterationInput) (is : List IterationInput) (m : Machine)
    (h : m.app.Running = true) :
    android_main_loop (i :: is) m = android_main_loop is (android_main_iteration i m) := by
  rw [android_main_loop, if_pos h]

theorem HandleSessionStateChange_keeps_stopped (state : XrSessionState) (m : Machine)
    (h : m.app.Running = false) : (HandleSessionStateChange state m).app.Running = false := by
  cases state <;> first | exact h | rfl

theorem HandleSessionStateChange_other (state : XrSessionState) (m : Machine)
    (h1 : state ≠ .READY) (h2 : state ≠ .STOPPING) :
    (HandleSessionStateChange state m).app.SessionActive = m.app.SessionActive ∧
    (HandleSessionStateChange state m).calls = m.calls := by
  cases state <;> first | exact absurd rfl h1 | exact absurd rfl h2 | exact ⟨rfl, rfl⟩

/-- Claim C12, counterexample. In the Terminal state reached by handling Exiting
from the sample start state, a later Ready event is not ignored: it sets
`SessionActive` and calls begin-session, and a later Stopping event calls
end-session; the drain `[Exiting, Ready]` of the main loop does so too. -/
theorem HandleSessionStateChange_terminal_not_ignored :
    phase (HandleSessionStateChange .EXITING sampleMachine).app = .Terminal ∧
    (HandleSessionStateChange .EXITING sampleMachine).app.Running = false ∧
    (HandleSessionStateChange .READY (HandleSessionStateChange .EXITING sampleMachine)).app.SessionActive
      ≠ (HandleSessionStateChange .EXITING sampleMachine).app.SessionActive ∧
    (HandleSessionStateChange .READY (HandleSessionStateChange .EXITING sampleMachine)).calls
      = (HandleSessionStateChange .EXITING sampleMachine).calls ++ [.xrBeginSession] ∧
    (HandleSessionStateChange .STOPPING (HandleSessionStateChange .EXITING sampleMachine)).calls
      = (HandleSessionStateChange .EXITING sampleMachine).calls ++ [.xrEndSession] ∧
    (processXrEvents [.SESSION_STATE_CHANGED .EXITING, .SESSION_STATE_CHANGED .READY]
        sampleMachine).calls
      = [.xrBeginSession, .xrAttachSessionActionSets, .xrCreateActionSpace false,
         .xrCreateActionSpace true] ∧
    (processXrEvents [.SESSION_STATE_CHANGED .EXITING, .SESSION_STATE_CHANGED .READY]
        sampleMachine).app.SessionActive = true := by
  refine ⟨rfl, rfl, ?_, rfl, rfl, rfl, rfl⟩
  show (true : Bool) ≠ false
  exact Bool.noConfusion

/-- Claim C12, amended. Once `Running` is false it stays false under every later
session-state event, and the main loop runs no further iteration, so no event of
a later iteration is handled; an event still handled in the same drain is
treated as in any other state: Ready calls begin-session and sets
`SessionActive`, Stopping calls end-session and clears it, every other session
state leaves `SessionActive` unchanged and makes no call. -/
theorem HandleSessionStateChange_when_terminal (state : XrSessionState) (m : Machine)
    (is : List IterationInput) (hterm : m.app.Running = false) :
    (HandleSessionStateChange state m).app.Running = false ∧
    (state ≠ .READY → state ≠ .STOPPING →
      (HandleSessionStateChange state m).app.SessionActive = m.app.SessionActive ∧
      (HandleSessionStateChange state m).calls = m.calls) ∧
    ((HandleSessionStateChange .READY m).app.SessionActive = true ∧
      (HandleSessionStateChange .READY m).calls = m.calls ++ [.xrBeginSession]) ∧
    ((HandleSessionStateChange .STOPPING m).app.SessionActive = false ∧
      (HandleSessionStateChange .STOPPING m).calls = m.calls ++ [.xrEndSession]) ∧
    android_main_loop is m = m :=
  ⟨HandleSessionStateChange_keeps_stopped state m hterm,
    HandleSessionStateChange_other state m, ⟨rfl, rfl⟩, ⟨rfl, rfl⟩,
    android_main_loop_stopped is m hterm⟩

theorem HandleSessionStateChange_when_terminal_witness :
    (HandleSessionStateChange .EXITING sampleMachine).app.Running = false ∧
    (HandleSessionStateChange .FOCUSED (HandleSessionStateChange .EXITING sampleMachine)).app.Running
      = false ∧
    android_main_loop [readyIteration] (HandleSessionStateChange .EXITING sampleMachine)
      = HandleSessionStateChange .EXITING sampleMachine :=
  ⟨rfl,
    (HandleSessionStateChange_when_terminal .FOCUSED
      (HandleSessionStateChange .EXITING sampleMachine) [readyIteration] rfl).1,
    (HandleSessionStateChange_when_terminal .FOCUSED
      (HandleSessionStateChange .EXITING sampleMachine) [readyIteration] rfl).2.2.2.2⟩

theorem android_main_iteration_Running (i : IterationInput) (m : Machine) :
    (android_main_iteration i m).app.Running = (android_main_events i m).app.Running := by
  cases hact : (android_main_events i m).app.SessionActive
  · rw [android_main_iteration_idle i m hact]
  · rw [android_main_iteration_active i m hact, (android_main_frame_spec _ _).2.2.2]

theorem android_main_iteration_calls (i : IterationInput) (m : Machine) :
    (android_main_iteration i m).calls = (android_main_events i m).calls ++
      (if (android_main_events i m).app.SessionActive then
        frameCalls i.frame (android_main_events i m).app else []) := by
  cases hact : (android_main_events i m).app.SessionActive
  · rw [android_main_iteration_idle i m hact]
    simp
  · rw [android_main_iteration_active i m hact, (android_main_frame_spec _ _).1]
    simp

/-- Claim C13, counterexample. In the run whose first iteration handles Ready and
whose second iteration handles Exiting, the second iteration clears `Running`
in its event loop and still issues wait-frame, begin-frame, acquire and
end-frame: the run holds two frames, one of them issued after the terminal event
was observed. -/
theorem android_main_frame_after_terminal_event :
    (android_main_run ⟨1, 1024, 768, 3, some [11, 12, 13]⟩ 1 [readyIteration]).app.Running
      = true ∧
    (android_main_events exitingIteration
      (android_main_run ⟨1, 1024, 768, 3, some [11, 12, 13]⟩ 1 [readyIteration])).app.Running
      = false ∧
    frameMarks (android_main_run ⟨1, 1024, 768, 3, some [11, 12, 13]⟩ 1
      [readyIteration]).calls = [.beginFrame, .endFrame] ∧
    frameMarks (android_main_run ⟨1, 1024, 768, 3, some [11, 12, 13]⟩ 1
      [readyIteration, exitingIteration]).calls
      = [.beginFrame, .endFrame, .beginFrame, .endFrame] ∧
    (android_main_run ⟨1, 1024, 768, 3, some [11, 12, 13]⟩ 1
      [readyIteration, exitingIteration]).calls.count Call.xrWaitFrame = 2 ∧
    (android_main_run ⟨1, 1024, 768, 3, some [11, 12, 13]⟩ 1
      [readyIteration, exitingIteration]).calls.count Call.xrAcquireSwapchainImage = 2 := by
  have hs : (startMachine ⟨1, 1024, 768, 3, some [11, 12, 13]⟩ 1).app.Running = true := rfl
  have he1 : android_main_events readyIteration
      (startMachine ⟨1, 1024, 768, 3, some [11, 12, 13]⟩ 1)
      = processXrEvent (.SESSION_STATE_CHANGED .READY)
        (startMachine ⟨1, 1024, 768, 3, some [11, 12, 13]⟩ 1) := rfl
  have ha1 : (android_main_events readyIteration
      (startMachine ⟨1, 1024, 768, 3, some [11, 12, 13]⟩ 1)).app.SessionActive = true := rfl
  have hr1 : (android_main_events readyIteration
      (startMachine ⟨1, 1024, 768, 3, some [11, 12, 13]⟩ 1)).app.Running = true := rfl
  have hc1 : (android_main_events readyIteration
      (startMachine ⟨1, 1024, 768, 3, some [11, 12, 13]⟩ 1)).calls
      = [.xrBeginSession, .xrAttachSessionActionSets, .xrCreateActionSpace false,
         .xrCreateActionSpace true] := rfl
  have hrun1 : android_main_run ⟨1, 1024, 768, 3, some [11, 12, 13]⟩ 1 [readyIteration]
      = android_main_iteration readyIteration
        (startMachine ⟨1, 1024, 768, 3, some [11, 12, 13]⟩ 1) := by
    rw [android_main_run, android_main_loop_running _ _ _ hs]
    rfl
  have hR1 : (android_main_run ⟨1, 1024, 768, 3, some [11, 12, 13]⟩ 1
      [readyIteration]).app.Running = true := by
    rw [hrun1, android_main_iteration_Running, hr1]
  have hA1 : (android_main_run ⟨1, 1024, 768, 3, some [11, 12, 13]⟩ 1
      [readyIteration]).app.SessionActive = true := by
    rw [hrun1, android_main_iteration_active _ _ ha1, (android_main_frame_spec _ _).2.2.1, ha1]
  have hC1 : (android_main_run ⟨1, 1024, 768, 3, some [11, 12, 13]⟩ 1 [readyIteration]).calls
      = [.xrBeginSession, .xrAttachSessionActionSets, .xrCreateActionSpace false,
         .xrCreateActionSpace true] ++ frameCalls sampleFrame (android_main_events readyIteration
          (startMachine ⟨1, 1024, 768, 3, some [11, 12, 13]⟩ 1)).app := by
    rw [hrun1, android_main_iteration_calls, ha1, hc1]
    rfl
  have he2 : ∀ m : Machine, android_main_events exitingIteration m
      = { m with app := { m.app with Running := false } } := fun _ => rfl
  have hrun2 : android_main_run ⟨1, 1024, 768, 3, some [11, 12, 13]⟩ 1
      [readyIteration, exitingIteration]
      = android_main_iteration exitingIteration
        (android_main_run ⟨1, 1024, 768, 3, some [11, 12, 13]⟩ 1 [readyIteration]) := by
    have h0 : android_main_run ⟨1, 1024, 768, 3, some [11, 12, 13]⟩ 1
        [readyIteration, exitingIteration]
        = android_main_loop [exitingIteration]
          (android_main_run ⟨1, 1024, 768, 3, some [11, 12, 13]⟩ 1 [readyIteration]) := by
      rw [hrun1, android_main_run, android_main_loop_running _ _ _ hs]
    rw [h0, android_main_loop_running _ _ _ hR1]
    rfl
  have hC2 : (android_main_run ⟨1, 1024, 768, 3, some [11, 12, 13]⟩ 1
      [readyIteration, exitingIteration]).calls
      = (android_main_run ⟨1, 1024, 768, 3, some [11, 12, 13]⟩ 1 [readyIteration]).calls
        ++ frameCalls sampleFrame (android_main_events exitingIteration
          (android_main_run ⟨1, 1024, 768, 3, some [11, 12, 13]⟩ 1 [readyIteration])).app := by
    rw [hrun2, android_main_iteration_calls, he2]
    simp only [hA1, if_true]
    rfl
  refine ⟨hR1, by rw [he2], ?_, ?_, ?_, ?_⟩
  · rw [hC1]; rfl
  · rw [hC2, hC1]; rfl
  · rw [hC2, hC1]; simp [frameCalls]
  · rw [hC2, hC1]; simp [frameCalls]

/-- Claim C13, amended. Once an iteration's event loops have cleared `Running`
(Exiting, LossPending, instance loss pending or a platform destroy request), no
later iteration runs, so no call of any kind is made after that iteration; the
iteration itself still issues its frame (wait-frame to end-frame) when the
session is active after its event loops, and no frame call otherwise. -/
theorem android_main_stops_after_terminal (i : IterationInput) (is : List IterationInput)
    (m : Machine) (hrun : m.app.Running = true)
    (hterm : (android_main_events i m).app.Running = false) :
    android_main_loop (i :: is) m = android_main_iteration i m ∧
    (android_main_iteration i m).calls = (android_main_events i m).calls ++
      (if (android_main_events i m).app.SessionActive then
        frameCalls i.frame (android_main_events i m).app else []) ∧
    (∀ (s : Machine) (js : List IterationInput), s.app.Running = false →
      android_main_loop js s = s) := by
  refine ⟨?_, android_main_iteration_calls i m, fun s js hs => android_main_loop_stopped js s hs⟩
  rw [android_main_loop_running i is m hrun]
  exact android_main_loop_stopped is _ (by rw [android_main_iteration_Running, hterm])

theorem android_main_stops_after_terminal_witness :
    sampleMachine.app.Running = true ∧
    (android_main_events exitingIteration sampleMachine).app.Running = false ∧
    android_main_loop [exitingIteration, readyIteration] sampleMachine
      = android_main_iteration exitingIteration sampleMachine :=
  ⟨rfl, rfl, (android_main_stops_after_terminal exitingIteration [readyIteration]
    sampleMachine rfl rfl).1⟩

/-! ## Swapchain teardown -/

/-- Claim C14. `ovrSwapChain_Destroy` leaves `Handle`, `Width`, `Height`,
`ImageCount` zero and `ColorTextures` null for every pool; it makes the runtime
destroy call exactly for a non-null handle; a second call, and a call on the
zero-initialised pool, make no runtime destroy call (only `free(NULL)`) and
leave the all-zero pool. -/
theorem ovrSwapChain_Destroy_idempotent (sc : ovrSwapChain) :
    ((ovrSwapChain_Destroy sc).1.Handle = 0 ∧ (ovrSwapChain_Destroy sc).1.Width = 0 ∧
      (ovrSwapChain_Destroy sc).1.Height = 0 ∧ (ovrSwapChain_Destroy sc).1.ImageCount = 0 ∧
      (ovrSwapChain_Destroy sc).1.ColorTextures = none) ∧
    ((ovrSwapChain_Destroy sc).2 =
      (if sc.Handle ≠ 0 then [TeardownCall.xrDestroySwapchain sc.Handle] else [])
        ++ [TeardownCall.free sc.ColorTextures]) ∧
    (ovrSwapChain_Destroy (ovrSwapChain_Destroy sc).1).1 = (ovrSwapChain_Destroy sc).1 ∧
    (ovrSwapChain_Destroy (ovrSwapChain_Destroy sc).1).2 = [TeardownCall.free none] ∧
    (∀ c ∈ (ovrSwapChain_Destroy (ovrSwapChain_Destroy sc).1).2, c.isDestroy = false) ∧
    (ovrSwapChain_Destroy zeroApp.UiSwapChain).1 = zeroApp.UiSwapChain ∧
    (ovrSwapChain_Destroy zeroApp.UiSwapChain).2 = [TeardownCall.free none] ∧
    (∀ c ∈ (ovrSwapChain_Destroy zeroApp.UiSwapChain).2, c.isDestroy = false) := by
  refine ⟨⟨rfl, rfl, rfl, rfl, rfl⟩, rfl, rfl, rfl, ?_, rfl, rfl, ?_⟩
  · intro c hc
    have h : c = TeardownCall.free none := by
      simpa [ovrSwapChain_Destroy] using hc
    rw [h]
    rfl
  · intro c hc
    have h : c = TeardownCall.free none := by
      simpa [ovrSwapChain_Destroy, zeroApp] using hc
    rw [h]
    rfl

/-! ## The forward direction -/

theorem quatRotate_forward_axis (q : XrQuaternionf) (hunit : quatNormSq q = 1) :
    quatRotate q ⟨0, 0, -1⟩ =
      ⟨-2 * (q.x * q.z + q.w * q.y), -2 * (q.y * q.z - q.w * q.x),
        -(1 - 2 * (q.x * q.x + q.y * q.y))⟩ := by
  have hu : q.x * q.x + q.y * q.y + q.z * q.z + q.w * q.w = 1 := hunit
  simp only [quatRotate, quatMul, quatInv, hunit, div_one, XrVector3f.mk.injEq]
  refine ⟨?_, ?_, ?_⟩
  · ring
  · ring
  · linear_combination (-1 : ℚ) * hu

/-- The closed form of `UpdateInput` is the rotation of `(0,0,-1)` by the
conjugate (the inverse) of a unit orientation, not by the orientation. -/
theorem forward_eq_rotate_conj (q : XrQuaternionf) (hunit : quatNormSq q = 1) :
    forward q = quatRotate (quatConj q) ⟨0, 0, -1⟩ := by
  have hc : quatNormSq (quatConj q) = 1 := by
    simpa [quatNormSq, quatConj] using hunit
  rw [quatRotate_forward_axis _ hc]
  simp only [forward, quatConj, XrVector3f.mk.injEq]
  refine ⟨?_, ?_, ?_⟩
  · norm_num
    ring
  · norm_num
  · norm_num

/-- Claim C15, the code at the failing input. For the unit orientation
`(0, 3/5, 0, 4/5)` the closed form of `UpdateInput` gives the forward vector
`(24/25, 0, -7/25)`, while the rotation `q * (0,0,-1) * q^-1` is
`(-24/25, 0, -7/25)`: the two differ. -/
theorem forward_differs_from_rotation :
    quatNormSq yawQuat = 1 ∧
    forward yawQuat = ⟨24 / 25, 0, -7 / 25⟩ ∧
    quatRotate yawQuat ⟨0, 0, -1⟩ = ⟨-24 / 25, 0, -7 / 25⟩ ∧
    forward yawQuat ≠ quatRotate yawQuat ⟨0, 0, -1⟩ := by
  have h1 : quatNormSq yawQuat = 1 := by norm_num [quatNormSq, yawQuat]
  have h2 : forward yawQuat = ⟨24 / 25, 0, -7 / 25⟩ := by
    norm_num [forward, yawQuat]
  have h3 : quatRotate yawQuat ⟨0, 0, -1⟩ = ⟨-24 / 25, 0, -7 / 25⟩ := by
    rw [quatRotate_forward_axis _ h1]
    norm_num [yawQuat]
  refine ⟨h1, h2, h3, ?_⟩
  rw [h2, h3]
  intro h
  have hx := congrArg XrVector3f.x h
  norm_num at hx

/-- Claim C18. For a unit quaternion the forward direction computed in
`UpdateInput` is a unit vector, `dx^2 + dy^2 + dz^2 = 1`; hence, for an aim pose
with that orientation and `dz ≠ 0`, the squared distance from the pose position
to the hit point `(hitX, hitY, -2)` is `t^2`: the ray parameter is a distance. -/
theorem forward_unit_vector (aimLoc : XrSpaceLocation)
    (hunit : aimLoc.pose.orientation.x ^ 2 + aimLoc.pose.orientation.y ^ 2
      + aimLoc.pose.orientation.z ^ 2 + aimLoc.pose.orientation.w ^ 2 = 1) :
    (forward aimLoc.pose.orientation).x ^ 2 + (forward aimLoc.pose.orientation).y ^ 2
      + (forward aimLoc.pose.orientation).z ^ 2 = 1 ∧
    (forward aimLoc.pose.orientation).x = -2 * (aimLoc.pose.orientation.x * aimLoc.pose.orientation.z
      - aimLoc.pose.orientation.w * aimLoc.pose.orientation.y) ∧
    (forward aimLoc.pose.orientation).y = -2 * (aimLoc.pose.orientation.y * aimLoc.pose.orientation.z
      + aimLoc.pose.orientation.w * aimLoc.pose.orientation.x) ∧
    (forward aimLoc.pose.orientation).z = -(1 - 2 * (aimLoc.pose.orientation.x ^ 2
      + aimLoc.pose.orientation.y ^ 2)) ∧
    ((forward aimLoc.pose.orientation).z ≠ 0 →
      (hitX aimLoc - aimLoc.pose.position.x) ^ 2 + (hitY aimLoc - aimLoc.pose.position.y) ^ 2
        + (-2 - aimLoc.pose.position.z) ^ 2 = rayT aimLoc ^ 2) := by
  have hn : (forward aimLoc.pose.orientation).x ^ 2 + (forward aimLoc.pose.orientation).y ^ 2
      + (forward aimLoc.pose.orientation).z ^ 2 = 1 := by
    simp only [forward]
    norm_num
    linear_combination (4 * (aimLoc.pose.orientation.x ^ 2 + aimLoc.pose.orientation.y ^ 2)) * hunit
  refine ⟨hn, ?_, ?_, ?_, ?_⟩
  · simp only [forward]; norm_num
  · simp only [forward]; norm_num
  · simp only [forward]; norm_num; ring
  · intro hz
    have ht : -2 - aimLoc.pose.position.z = rayT aimLoc * (forward aimLoc.pose.orientation).z := by
      unfold rayT
      field_simp
    have hx : hitX aimLoc - aimLoc.pose.position.x
        = (forward aimLoc.pose.orientation).x * rayT aimLoc := by
      unfold hitX; ring
    have hy : hitY aimLoc - aimLoc.pose.position.y
        = (forward aimLoc.pose.orientation).y * rayT aimLoc := by
      unfold hitY; ring
    rw [hx, hy, ht]
    linear_combination (rayT aimLoc ^ 2) * hn

theorem forward_unit_vector_witness :
    (⟨2, ⟨yawQuat, ⟨0, 0, 1⟩⟩⟩ : XrSpaceLocation).pose.orientation.x ^ 2
      + (⟨2, ⟨yawQuat, ⟨0, 0, 1⟩⟩⟩ : XrSpaceLocation).pose.orientation.y ^ 2
      + (⟨2, ⟨yawQuat, ⟨0, 0, 1⟩⟩⟩ : XrSpaceLocation).pose.orientation.z ^ 2
      + (⟨2, ⟨yawQuat, ⟨0, 0, 1⟩⟩⟩ : XrSpaceLocation).pose.orientation.w ^ 2 = 1 ∧
    (forward yawQuat).x ^ 2 + (forward yawQuat).y ^ 2 + (forward yawQuat).z ^ 2 = 1 :=
  ⟨by norm_num [yawQuat],
    (forward_unit_vector ⟨2, ⟨yawQuat, ⟨0, 0, 1⟩⟩⟩ (by norm_num [yawQuat])).1⟩

/-! ## The log buffer -/

theorem AppendLog_LogBuffer (msg : List Char) (app : ovrApp) :
    (AppendLog msg app).LogBuffer =
      (if app.LogBuffer.length + (msg.take 511).length + 2 > 8192 - 100
        then app.LogBuffer.drop 1024 else app.LogBuffer) ++ msg.take 511 ++ ['\n'] := rfl

theorem AppendLog_length_le (msg : List Char) (app : ovrApp)
    (h : app.LogBuffer.length ≤ 8091) : (AppendLog msg app).LogBuffer.length ≤ 8091 := by
  have ht : (msg.take 511).length ≤ 511 := by
    rw [List.length_take]
    exact Nat.min_le_left _ _
  rw [AppendLog_LogBuffer]
  split
  · simp only [List.length_append, List.length_drop, List.length_singleton]
    omega
  · simp only [List.length_append, List.length_singleton]
    omega

theorem applyLogOp_length_le (op : LogOp) (app : ovrApp)
    (h : app.LogBuffer.length ≤ 8091) : (applyLogOp op app).LogBuffer.length ≤ 8091 := by
  cases op with
  | append msg => exact AppendLog_length_le msg app h
  | clear => exact Nat.zero_le _

theorem applyLogOps_length_le (ops : List LogOp) (app : ovrApp)
    (h : app.LogBuffer.length ≤ 8091) : (applyLogOps ops app).LogBuffer.length ≤ 8091 := by
  induction ops generalizing app with
  | nil => exact h
  | cons op ops ih =>
    have hunf : applyLogOps (op :: ops) app = applyLogOps ops (applyLogOp op app) := rfl
    rw [hunf]
    exact ih _ (applyLogOp_length_le op app h)

/-- Claim C16. Starting from an empty log buffer, after every sequence of
`AppendLog` calls and `Clear Log` operations the stored string is at most 8091
characters long, so with its terminator it fits the 8192-byte buffer; and
whenever the next `AppendLog` takes the eviction branch the current length is at
least 1024, so the `memmove` source offset 1024 and its length
`logLen - 1024 + 1` stay inside the buffer, and the log becomes the old log
without its first 1024 characters, the message and a newline. -/
theorem AppendLog_never_overflows (ops : List LogOp) (app : ovrApp) (msg : List Char)
    (hempty : app.LogBuffer = []) :
    (applyLogOps ops app).LogBuffer.length ≤ 8091 ∧
    (applyLogOps ops app).LogBuffer.length + 1 < 8192 ∧
    ((applyLogOps ops app).LogBuffer.length + (msg.take 511).length + 2 > 8192 - 100 →
      1024 ≤ (applyLogOps ops app).LogBuffer.length ∧
      1024 + ((applyLogOps ops app).LogBuffer.length - 1024 + 1) ≤ 8192 ∧
      (AppendLog msg (applyLogOps ops app)).LogBuffer
        = (applyLogOps ops app).LogBuffer.drop 1024 ++ msg.take 511 ++ ['\n']) ∧
    (AppendLog msg (applyLogOps ops app)).LogBuffer.length ≤ 8091 := by
  have h0 : app.LogBuffer.length ≤ 8091 := by rw [hempty]; exact Nat.zero_le _
  have h := applyLogOps_length_le ops app h0
  have ht : (msg.take 511).length ≤ 511 := by
    rw [List.length_take]
    exact Nat.min_le_left _ _
  refine ⟨h, by omega, ?_, AppendLog_length_le msg _ h⟩
  intro hev
  refine ⟨by omega, by omega, ?_⟩
  rw [AppendLog_LogBuffer, if_pos hev]

theorem AppendLog_never_overflows_witness :
    zeroApp.LogBuffer = [] ∧
    (applyLogOps [.append "first line".toList, .clear, .append "second line".toList]
      zeroApp).LogBuffer.length ≤ 8091 :=
  ⟨rfl, (AppendLog_never_overflows
    [.append "first line".toList, .clear, .append "second line".toList] zeroApp [] rfl).1⟩

/-! ## The presence flags -/

theorem GenerateLobbyId_fields (e : Entropy) (app : ovrApp) :
    (GenerateLobbyId e app).PresenceSet = app.PresenceSet ∧
    (GenerateLobbyId e app).IsJoinable = app.IsJoinable ∧
    (GenerateLobbyId e app).LobbyId ≠ [] := by
  refine ⟨rfl, rfl, ?_⟩
  have hl : "lobby_".toList = ['l', 'o', 'b', 'b', 'y', '_'] := rfl
  simp only [GenerateLobbyId, AppendLog_LobbyId, hl]
  simp

theorem SetGroupPresence_fields (e : Entropy) (app : ovrApp) :
    (SetGroupPresence e app).PresenceSet = true ∧
    (SetGroupPresence e app).IsJoinable = true ∧
    (SetGroupPresence e app).LobbyId ≠ [] ∧
    (app.LobbyId ≠ [] → (SetGroupPresence e app).LobbyId = app.LobbyId) := by
  have hid : (SetGroupPresence e app).LobbyId
      = (if app.LobbyId.length = 0 then GenerateLobbyId e app else app).LobbyId := by
    simp only [SetGroupPresence, AppendLog_LobbyId]
  refine ⟨by simp only [SetGroupPresence, AppendLog_PresenceSet],
    by simp only [SetGroupPresence, AppendLog_IsJoinable], ?_, ?_⟩
  · rw [hid]
    by_cases h : app.LobbyId.length = 0
    · rw [if_pos h]
      exact (GenerateLobbyId_fields e app).2.2
    · rw [if_neg h]
      intro hn
      exact h (by rw [hn]; rfl)
  · intro hne
    rw [hid, if_neg (fun h => hne (List.length_eq_zero.mp h))]

theorem ClearGroupPresence_fields (app : ovrApp) :
    (ClearGroupPresence app).PresenceSet = false ∧
    (ClearGroupPresence app).IsJoinable = false ∧
    (ClearGroupPresence app).LobbyId = [] :=
  ⟨rfl, rfl, rfl⟩

theorem LaunchInvitePanel_fields (app : ovrApp) :
    (LaunchInvitePanel app).PresenceSet = app.PresenceSet ∧
    (LaunchInvitePanel app).IsJoinable = app.IsJoinable ∧
    (LaunchInvitePanel app).LobbyId = app.LobbyId := by
  simp only [LaunchInvitePanel, AppendLog_PresenceSet, AppendLog_IsJoinable, AppendLog_LobbyId]
  split_ifs <;> simp only [AppendLog_PresenceSet, AppendLog_IsJoinable, AppendLog_LobbyId,
    and_self]

theorem PresenceInv_of_set {app : ovrApp} (hp : app.PresenceSet = true)
    (hj : app.IsJoinable = true) (hl : app.LobbyId ≠ []) : PresenceInv app :=
  ⟨by rw [hp, hj], fun _ => hl⟩

theorem applyPresenceAction_inv (a : PresenceAction) (app : ovrApp) (h : PresenceInv app) :
    PresenceInv (applyPresenceAction a app) := by
  cases a with
  | GenerateLobbyId e =>
    obtain ⟨h1, h2, h3⟩ := GenerateLobbyId_fields e app
    exact ⟨by rw [applyPresenceAction, h1, h2]; exact h.1, fun _ => h3⟩
  | SetGroupPresence e =>
    obtain ⟨h1, h2, h3, _⟩ := SetGroupPresence_fields e app
    exact PresenceInv_of_set h1 h2 h3
  | ClearGroupPresence =>
    obtain ⟨h1, h2, _⟩ := ClearGroupPresence_fields app
    refine ⟨by rw [applyPresenceAction, h1, h2], ?_⟩
    intro hp
    rw [applyPresenceAction, h1] at hp
    exact Bool.noConfusion hp
  | LaunchInvitePanel =>
    obtain ⟨h1, h2, h3⟩ := LaunchInvitePanel_fields app
    refine ⟨by rw [applyPresenceAction, h1, h2]; exact h.1, ?_⟩
    intro hp
    rw [applyPresenceAction, h1] at hp
    rw [applyPresenceAction, h3]
    exact h.2 hp
  | TestBuggyFlow e =>
    obtain ⟨h1, h2, h3, _⟩ := SetGroupPresence_fields e
      (LaunchInvitePanel (AppendLog "Result: Panel closes immediately".toList
        (AppendLog "Order: Panel -> Presence (WRONG!)".toList
          (AppendLog "=== BUGGY FLOW (Developer's Issue) ===".toList app))))
    exact PresenceInv_of_set h1 h2 h3
  | TestCorrectFlow e =>
    obtain ⟨h1, h2, h3, _⟩ := SetGroupPresence_fields e
      (GenerateLobbyId e (AppendLog "Order: Lobby -> Presence -> Panel".toList
        (AppendLog "=== CORRECT FLOW ===".toList app)))
    exact PresenceInv_of_set (by simpa only [AppendLog_PresenceSet] using h1)
      (by simpa only [AppendLog_IsJoinable] using h2)
      (by simpa only [AppendLog_LobbyId] using h3)

theorem applyPresenceActions_inv (acts : List PresenceAction) (app : ovrApp)
    (h : PresenceInv app) : PresenceInv (applyPresenceActions acts app) := by
  induction acts generalizing app with
  | nil => exact h
  | cons a acts ih =>
    have hunf : applyPresenceActions (a :: acts) app
        = applyPresenceActions acts (applyPresenceAction a app) := rfl
    rw [hunf]
    exact ih _ (applyPresenceAction_inv a app h)

/-- Claim C17. From the zero-initialised state every sequence of presence
actions keeps `PresenceSet = IsJoinable` and a non-empty `LobbyId` whenever
`PresenceSet` holds; in every state `SetGroupPresence` keeps a non-empty
`LobbyId`, `ClearGroupPresence` empties it, and `LaunchInvitePanel` changes
neither flag nor the `LobbyId`. -/
theorem presence_actions_invariant (acts : List PresenceAction) (app : ovrApp) (e : Entropy) :
    ((applyPresenceActions acts zeroApp).PresenceSet
      = (applyPresenceActions acts zeroApp).IsJoinable ∧
     ((applyPresenceActions acts zeroApp).PresenceSet = true →
      (applyPresenceActions acts zeroApp).LobbyId ≠ [])) ∧
    (app.LobbyId ≠ [] → (SetGroupPresence e app).LobbyId = app.LobbyId) ∧
    (ClearGroupPresence app).LobbyId = [] ∧
    ((LaunchInvitePanel app).PresenceSet = app.PresenceSet ∧
     (LaunchInvitePanel app).IsJoinable = app.IsJoinable ∧
     (LaunchInvitePanel app).LobbyId = app.LobbyId) := by
  have h0 : PresenceInv zeroApp := ⟨rfl, fun h => Bool.noConfusion h⟩
  exact ⟨applyPresenceActions_inv acts zeroApp h0, (SetGroupPresence_fields e app).2.2.2,
    rfl, LaunchInvitePanel_fields app⟩

theorem presence_actions_invariant_witness :
    (GenerateLobbyId ⟨7, 1000⟩ zeroApp).LobbyId ≠ [] ∧
    (SetGroupPresence ⟨8, 2000⟩ (GenerateLobbyId ⟨7, 1000⟩ zeroApp)).LobbyId
      = (GenerateLobbyId ⟨7, 1000⟩ zeroApp).LobbyId ∧
    (applyPresenceActions [.TestBuggyFlow ⟨7, 1000⟩, .LaunchInvitePanel] zeroApp).LobbyId ≠ [] :=
  ⟨(GenerateLobbyId_fields ⟨7, 1000⟩ zeroApp).2.2,
    (presence_actions_invariant [] (GenerateLobbyId ⟨7, 1000⟩ zeroApp) ⟨8, 2000⟩).2.1
      (GenerateLobbyId_fields ⟨7, 1000⟩ zeroApp).2.2,
    (presence_actions_invariant [.TestBuggyFlow ⟨7, 1000⟩, .LaunchInvitePanel] zeroApp
      ⟨8, 2000⟩).1.2 rfl⟩

/-! ## Pointer projection in binary32 arithmetic -/

theorem F32.lt_eq_false_of_le (a b : F32) (h : F32.le a b = true) : F32.lt b a = false := by
  cases a <;> cases b <;> simp [F32.le, F32.lt] at h ⊢
  omega

/-- A finite `float` whose exact value is at least `-0.001` is at least the
literal `-0.001f`, which lies just below `-0.001`. -/
theorem F32.le_threshold_of_exact (k : Int) (h : -((2 : Int) ^ 149) ≤ 1000 * k) :
    F32.le (F32.neg (F32.dec 1 3)) (F32.fin k) = true := by
  have hthr : F32.neg (F32.dec 1 3)
      = F32.fin (-713623880248293833044497743771827605340160) := by decide
  rw [hthr]
  simp only [F32.le, decide_eq_true_eq]
  norm_num at h
  omega

theorem ifClamp32_eq_specClamp32 (c lo hi : F32) (h : F32.lt hi lo = false) :
    (if F32.lt hi (if F32.lt c lo then lo else c) then hi
      else (if F32.lt c lo then lo else c)) = specClamp32 c lo hi := by
  unfold specClamp32
  by_cases hc : F32.lt c lo = true
  · simp [hc, h]
  · simp [hc]

theorem UpdateInput32_cursor_hit (time : Int) (value : F32) (aimLoc : XrSpaceLocation32)
    (s : InputState32)
    (hvalid : aimLoc.locationFlags &&& XR_SPACE_LOCATION_POSITION_VALID_BIT ≠ 0)
    (hdz : F32.lt (forward32 aimLoc.pose.orientation).z (F32.neg (F32.dec 1 3)) = true)
    (ht0 : F32.lt (F32.ofInt 0) (rayT32 aimLoc) = true)
    (ht1 : F32.lt (rayT32 aimLoc) (F32.dec 1000 1) = true) :
    (UpdateInput32 time value aimLoc s).CursorX
      = specClamp32 (F32.mul (F32.sub (F32.dec 5 1) (F32.div (hitX32 aimLoc) (F32.dec 16 1)))
          (F32.ofInt 1024)) (F32.ofInt 0) (F32.ofInt 1024) ∧
    (UpdateInput32 time value aimLoc s).CursorY
      = specClamp32 (F32.mul (F32.add (F32.div (hitY32 aimLoc) (F32.dec 12 1)) (F32.dec 5 1))
          (F32.ofInt 768)) (F32.ofInt 0) (F32.ofInt 768) := by
  have ht : F32.lt (F32.ofInt 0) (F32.div (F32.sub (F32.neg (F32.dec 20 1))
        aimLoc.pose.position.z) (forward32 aimLoc.pose.orientation).z) = true ∧
      F32.lt (F32.div (F32.sub (F32.neg (F32.dec 20 1)) aimLoc.pose.position.z)
        (forward32 aimLoc.pose.orientation).z) (F32.dec 1000 1) = true := ⟨ht0, ht1⟩
  have hx := ifClamp32_eq_specClamp32
    (F32.mul (F32.sub (F32.dec 5 1) (F32.div (hitX32 aimLoc) (F32.dec 16 1))) (F32.ofInt 1024))
    (F32.ofInt 0) (F32.ofInt 1024) (by decide)
  have hy := ifClamp32_eq_specClamp32
    (F32.mul (F32.add (F32.div (hitY32 aimLoc) (F32.dec 12 1)) (F32.dec 5 1)) (F32.ofInt 768))
    (F32.ofInt 0) (F32.ofInt 768) (by decide)
  unfold UpdateInput32
  simp only [if_pos hvalid, if_pos hdz, if_pos ht, UI_WIDTH, UI_HEIGHT]
  exact ⟨hx, hy⟩

theorem UpdateInput32_nohit (time : Int) (value : F32) (aimLoc : XrSpaceLocation32)
    (s : InputState32)
    (h : ¬ (aimLoc.locationFlags &&& XR_SPACE_LOCATION_POSITION_VALID_BIT ≠ 0) ∨
      F32.lt (forward32 aimLoc.pose.orientation).z (F32.neg (F32.dec 1 3)) = false ∨
      ¬ (F32.lt (F32.ofInt 0) (rayT32 aimLoc) = true ∧
        F32.lt (rayT32 aimLoc) (F32.dec 1000 1) = true)) :
    UpdateInput32 time value aimLoc s =
      { s with
        TriggerPressed := F32.lt (F32.dec 5 1) value
        TriggerJustPressed := F32.lt (F32.dec 5 1) value && !s.TriggerPressed
        calls := s.calls ++ [Call.xrSyncActions, Call.xrGetActionStateFloat,
          Call.xrLocateSpace time] } := by
  unfold UpdateInput32
  simp only [List.append_assoc, List.singleton_append, List.cons_append, List.nil_append]
  by_cases h1 : aimLoc.locationFlags &&& XR_SPACE_LOCATION_POSITION_VALID_BIT ≠ 0
  · by_cases h2 : F32.lt (forward32 aimLoc.pose.orientation).z (F32.neg (F32.dec 1 3)) = true
    · have h3 : ¬ (F32.lt (F32.ofInt 0) (F32.div (F32.sub (F32.neg (F32.dec 20 1))
            aimLoc.pose.position.z) (forward32 aimLoc.pose.orientation).z) = true ∧
          F32.lt (F32.div (F32.sub (F32.neg (F32.dec 20 1)) aimLoc.pose.position.z)
            (forward32 aimLoc.pose.orientation).z) (F32.dec 1000 1) = true) := by
        rcases h with h | h | h
        · exact absurd h1 h
        · rw [h2] at h
          exact Bool.noConfusion h
        · exact h
      simp only [if_pos h1, if_pos h2, if_neg h3]
    · simp only [if_pos h1, if_neg h2]
  · simp only [if_neg h1]

/-- Claim C1. For an aim pose that produces a valid hit in the program's own
`float` arithmetic (position-valid flag set, computed `dz < -0.001f`, computed
`t = (-2 - pz)/dz` with `0 < t < 100`), `UpdateInput` sets
`CursorX = clamp((0.5 - hitX/1.6) * 1024, 0, 1024)` and
`CursorY = clamp((hitY/1.2 + 0.5) * 768, 0, 768)`, every operation rounded to
binary32; the result is the same from every other previous state `s2`, so it
does not depend on the previous cursor. -/
theorem UpdateInput32_hit_sets_cursor (time : Int) (value : F32) (aimLoc : XrSpaceLocation32)
    (s s2 : InputState32)
    (hvalid : aimLoc.locationFlags &&& XR_SPACE_LOCATION_POSITION_VALID_BIT ≠ 0)
    (hdz : F32.lt (forward32 aimLoc.pose.orientation).z (F32.neg (F32.dec 1 3)) = true)
    (ht0 : F32.lt (F32.ofInt 0) (rayT32 aimLoc) = true)
    (ht1 : F32.lt (rayT32 aimLoc) (F32.dec 1000 1) = true) :
    (UpdateInput32 time value aimLoc s).CursorX
      = specClamp32 (F32.mul (F32.sub (F32.dec 5 1) (F32.div (hitX32 aimLoc) (F32.dec 16 1)))
          (F32.ofInt 1024)) (F32.ofInt 0) (F32.ofInt 1024) ∧
    (UpdateInput32 time value aimLoc s).CursorY
      = specClamp32 (F32.mul (F32.add (F32.div (hitY32 aimLoc) (F32.dec 12 1)) (F32.dec 5 1))
          (F32.ofInt 768)) (F32.ofInt 0) (F32.ofInt 768) ∧
    (UpdateInput32 time value aimLoc s2).CursorX = (UpdateInput32 time value aimLoc s).CursorX ∧
    (UpdateInput32 time value aimLoc s2).CursorY = (UpdateInput32 time value aimLoc s).CursorY := by
  have h1 := UpdateInput32_cursor_hit time value aimLoc s hvalid hdz ht0 ht1
  have h2 := UpdateInput32_cursor_hit time value aimLoc s2 hvalid hdz ht0 ht1
  exact ⟨h1.1, h1.2, h2.1.trans h1.1.symm, h2.2.trans h1.2.symm⟩

theorem UpdateInput32_hit_sets_cursor_witness :
    grazingHitLoc32.locationFlags &&& XR_SPACE_LOCATION_POSITION_VALID_BIT ≠ 0 ∧
    F32.lt (forward32 grazingHitLoc32.pose.orientation).z (F32.neg (F32.dec 1 3)) = true ∧
    F32.lt (F32.ofInt 0) (rayT32 grazingHitLoc32) = true ∧
    F32.lt (rayT32 grazingHitLoc32) (F32.dec 1000 1) = true ∧
    (UpdateInput32 7 (F32.ofInt 0) grazingHitLoc32 sampleInput32).CursorX
      = specClamp32 (F32.mul (F32.sub (F32.dec 5 1)
          (F32.div (hitX32 grazingHitLoc32) (F32.dec 16 1)))
          (F32.ofInt 1024)) (F32.ofInt 0) (F32.ofInt 1024) ∧
    (UpdateInput32 7 (F32.ofInt 0) grazingHitLoc32 sampleInput32).CursorY
      = specClamp32 (F32.mul (F32.add (F32.div (hitY32 grazingHitLoc32) (F32.dec 12 1))
          (F32.dec 5 1)) (F32.ofInt 768)) (F32.ofInt 0) (F32.ofInt 768) ∧
    (UpdateInput32 7 (F32.ofInt 0) grazingHitLoc32 ⟨F32.ofInt 7, F32.ofInt 9, true, false, []⟩).CursorX
      = (UpdateInput32 7 (F32.ofInt 0) grazingHitLoc32 sampleInput32).CursorX ∧
    (UpdateInput32 7 (F32.ofInt 0) grazingHitLoc32 ⟨F32.ofInt 7, F32.ofInt 9, true, false, []⟩).CursorY
      = (UpdateInput32 7 (F32.ofInt 0) grazingHitLoc32 sampleInput32).CursorY :=
  ⟨by decide, by decide, by decide, by decide,
    UpdateInput32_hit_sets_cursor 7 (F32.ofInt 0) grazingHitLoc32 sampleInput32
      ⟨F32.ofInt 7, F32.ofInt 9, true, false, []⟩ (by decide) (by decide) (by decide)
      (by decide)⟩

/-- Claim C3. For an aim pose whose computed forward Z-component satisfies
`dz >= -0.001f` in the program's `float` arithmetic, `UpdateInput` reports no
hit: it changes the two trigger flags and records its three calls, and
`CursorX` and `CursorY` keep their previous values, whatever these were. -/
theorem UpdateInput32_not_forward_keeps_cursor (time : Int) (value : F32)
    (aimLoc : XrSpaceLocation32) (s : InputState32)
    (hdz : F32.le (F32.neg (F32.dec 1 3)) (forward32 aimLoc.pose.orientation).z = true) :
    UpdateInput32 time value aimLoc s =
      { s with
        TriggerPressed := F32.lt (F32.dec 5 1) value
        TriggerJustPressed := F32.lt (F32.dec 5 1) value && !s.TriggerPressed
        calls := s.calls ++ [Call.xrSyncActions, Call.xrGetActionStateFloat,
          Call.xrLocateSpace time] } ∧
    (UpdateInput32 time value aimLoc s).CursorX = s.CursorX ∧
    (UpdateInput32 time value aimLoc s).CursorY = s.CursorY := by
  have h := UpdateInput32_nohit time value aimLoc s
    (Or.inr (Or.inl (F32.lt_eq_false_of_le _ _ hdz)))
  refine ⟨h, ?_, ?_⟩ <;> rw [h]

theorem UpdateInput32_not_forward_keeps_cursor_witness :
    F32.le (F32.neg (F32.dec 1 3)) (forward32 grazingMissLoc32.pose.orientation).z = true ∧
    (UpdateInput32 7 (F32.ofInt 0) grazingMissLoc32 sampleInput32).CursorX = F32.ofInt 100 ∧
    (UpdateInput32 7 (F32.ofInt 0) grazingMissLoc32 sampleInput32).CursorY = F32.ofInt 200 :=
  ⟨by decide,
    (UpdateInput32_not_forward_keeps_cursor 7 (F32.ofInt 0) grazingMissLoc32 sampleInput32
      (by decide)).2⟩

/-- Claim C5. The cursor keeps its last value in every no-hit case: when the
position-valid flag of the located pose is unset, or when the computed
intersection parameter `t` is not strictly between 0 and 100 in the program's
`float` arithmetic, `UpdateInput` leaves `CursorX` and `CursorY` as they were
(so it does not reset them to the origin). -/
theorem UpdateInput32_nohit_keeps_cursor (time : Int) (value : F32)
    (aimLoc : XrSpaceLocation32) (s : InputState32)
    (h : aimLoc.locationFlags &&& XR_SPACE_LOCATION_POSITION_VALID_BIT = 0 ∨
      ¬ (F32.lt (F32.ofInt 0) (rayT32 aimLoc) = true ∧
        F32.lt (rayT32 aimLoc) (F32.dec 1000 1) = true)) :
    (UpdateInput32 time value aimLoc s).CursorX = s.CursorX ∧
    (UpdateInput32 time value aimLoc s).CursorY = s.CursorY := by
  have h2 := UpdateInput32_nohit time value aimLoc s
    (h.elim (fun h => Or.inl (not_not.mpr h)) (fun h => Or.inr (Or.inr h)))
  constructor <;> rw [h2]

/-- The three poses at which rounding decides the branch: the first is a hit
in binary32 (cursor moved to `(0, 0)`), the second is no hit (cursor kept at
`(100, 200)`), the third is a hit with `t` just below `100.0f` (cursor moved to
`(512, 0)`). -/
theorem UpdateInput32_threshold_poses :
    ((UpdateInput32 7 (F32.ofInt 0) grazingHitLoc32 sampleInput32).CursorX = F32.ofInt 0 ∧
     (UpdateInput32 7 (F32.ofInt 0) grazingHitLoc32 sampleInput32).CursorY = F32.ofInt 0) ∧
    ((UpdateInput32 7 (F32.ofInt 0) grazingMissLoc32 sampleInput32).CursorX = F32.ofInt 100 ∧
     (UpdateInput32 7 (F32.ofInt 0) grazingMissLoc32 sampleInput32).CursorY = F32.ofInt 200) ∧
    (F32.lt (rayT32 farHitLoc32) (F32.dec 1000 1) = true ∧
     (UpdateInput32 7 (F32.ofInt 0) farHitLoc32 sampleInput32).CursorX = F32.ofInt 512 ∧
     (UpdateInput32 7 (F32.ofInt 0) farHitLoc32 sampleInput32).CursorY = F32.ofInt 0) := by
  refine ⟨⟨?_, ?_⟩, ⟨?_, ?_⟩, ?_, ?_, ?_⟩ <;> decide

theorem UpdateInput32_nohit_keeps_cursor_witness :
    (outOfRangeLoc32.locationFlags &&& XR_SPACE_LOCATION_POSITION_VALID_BIT = 0 ∨
      ¬ (F32.lt (F32.ofInt 0) (rayT32 outOfRangeLoc32) = true ∧
        F32.lt (rayT32 outOfRangeLoc32) (F32.dec 1000 1) = true)) ∧
    (UpdateInput32 7 (F32.ofInt 0) outOfRangeLoc32 sampleInput32).CursorX = F32.ofInt 100 ∧
    (UpdateInput32 7 (F32.ofInt 0) outOfRangeLoc32 sampleInput32).CursorY = F32.ofInt 200 ∧
    (UpdateInput32 7 (F32.ofInt 0) invalidLoc32 sampleInput32).CursorX = F32.ofInt 100 ∧
    (UpdateInput32 7 (F32.ofInt 0) invalidLoc32 sampleInput32).CursorY = F32.ofInt 200 :=
  ⟨Or.inr (by decide),
    (UpdateInput32_nohit_keeps_cursor 7 (F32.ofInt 0) outOfRangeLoc32 sampleInput32
      (Or.inr (by decide))).1,
    (UpdateInput32_nohit_keeps_cursor 7 (F32.ofInt 0) outOfRangeLoc32 sampleInput32
      (Or.inr (by decide))).2,
    (UpdateInput32_nohit_keeps_cursor 7 (F32.ofInt 0) invalidLoc32 sampleInput32
      (Or.inl (by decide))).1,
    (UpdateInput32_nohit_keeps_cursor 7 (F32.ofInt 0) invalidLoc32 sampleInput32
      (Or.inl (by decide))).2⟩

/-- The calls and the trigger flags of `UpdateInput32` are those of `UpdateInput`:
three calls, and the flags from the sampled value and the previous
`TriggerPressed`, whichever branch the pose takes. -/
theorem UpdateInput32_calls_and_trigger (time : Int) (value : F32)
    (aimLoc : XrSpaceLocation32) (s : InputState32) :
    (UpdateInput32 time value aimLoc s).calls
      = s.calls ++ [Call.xrSyncActions, Call.xrGetActionStateFloat, Call.xrLocateSpace time] ∧
    (UpdateInput32 time value aimLoc s).TriggerPressed = F32.lt (F32.dec 5 1) value ∧
    (UpdateInput32 time value aimLoc s).TriggerJustPressed
      = (F32.lt (F32.dec 5 1) value && !s.TriggerPressed) := by
  unfold UpdateInput32
  simp only [List.append_assoc, List.singleton_append, List.cons_append, List.nil_append]
  by_cases h1 : aimLoc.locationFlags &&& XR_SPACE_LOCATION_POSITION_VALID_BIT ≠ 0
  · by_cases h2 : F32.lt (forward32 aimLoc.pose.orientation).z (F32.neg (F32.dec 1 3)) = true
    · by_cases h3 : F32.lt (F32.ofInt 0) (F32.div (F32.sub (F32.neg (F32.dec 20 1))
            aimLoc.pose.position.z) (forward32 aimLoc.pose.orientation).z) = true ∧
          F32.lt (F32.div (F32.sub (F32.neg (F32.dec 20 1)) aimLoc.pose.position.z)
            (forward32 aimLoc.pose.orientation).z) (F32.dec 1000 1) = true
      · simp only [if_pos h1, if_pos h2, if_pos h3, and_self]
      · simp only [if_pos h1, if_pos h2, if_neg h3, and_self]
    · simp only [if_pos h1, if_neg h2, and_self]
  · simp only [if_neg h1, and_self]

end XrPresenceTest
